import Mathlib

/-! MultiHandoverAlgorithm (src/lte/model/multi-handover-algorithm.cc)

A shallow embedding of the decision core of the multi-attribute handover
algorithm: the per-terminal neighbour-measurement table
(`UpdateNeighbourMeasurements`), the scoring and trigger decision
(`EvaluateHandover`) and the report entry point (`DoReportUeMeas`).

Modelling conventions.

* `uint8_t` / `uint16_t` values are natural numbers; the two places where the
  code narrows a wider value to `uint16_t` go through `toUint16`.
* `double` values are IEEE 754 binary64 values (`Double`): a finite value is
  the rational it denotes, every single operation rounds its exact result to
  the nearest binary64 value (ties to even; no fused multiply-add and no
  extended precision), and infinities and NaN follow the IEEE rules.  The sign
  of zero is not represented; no operation of the code depends on it.
* `std::map` is an association list; `mapInsert` keeps it in ascending key
  order, which is the iteration order of `std::map`.
* Everything the code reads from outside the object (the simulator clock and
  the files under `rnti/`, `qoeTorre<id>`, `qosTorre<id>`) is a field of `Env`.
* The calls made on the handover management SAP user are returned as a list of
  `(rnti, targetCellId)` pairs, in call order; a run ended by an uncaught
  exception of `std::stod` or by a failed `NS_ASSERT_MSG` is an `Except.error`.
-/

namespace MultiHandover

/-! ## Machine integers -/

/-- Conversion of an integer value to `uint16_t` (reduction modulo `2^16`).
It is the conversion of `uint16_t bestNeighbourCellId = b` (line 204).  For the
assignment `bestNeighbourCellId = cell[i][3]` (line 316) the stored value is an
integer held in a `double`; C++ defines that conversion only for values in
`0..65535`, where it is the identity; outside that range the model takes the
value reduced modulo `2^16`. -/
def toUint16 (x : Int) : Nat := (x % 65536).toNat

/-! ## IEEE 754 binary64 -/

/-- A binary64 value: NaN, an infinity, or a finite value given by the
rational number it denotes.  Every result of an operation is in the image of
`Double.round`; the type also admits finite values outside it, and the
theorems quantify over those as well. -/
inductive Double where
  | nan
  | negInf
  | finite (q : ℚ)
  | posInf
deriving DecidableEq

/-- Number of binary digits of `n`, with `fuel` steps allowed. -/
def bitLengthAux : Nat → Nat → Nat
  | 0, _ => 0
  | fuel + 1, n => if n = 0 then 0 else bitLengthAux fuel (n / 2) + 1

/-- Number of binary digits of `n` (0 for 0). -/
def bitLength (n : Nat) : Nat := bitLengthAux n n

/-- The binary exponent of the positive rational `t / d`: the integer `e` with
`2^e ≤ t / d < 2^(e+1)`. -/
def exponentOf (t d : Nat) : Int :=
  if d * 2 ^ ((bitLength t : Int) - (bitLength d : Int)).toNat ≤
      t * 2 ^ ((bitLength d : Int) - (bitLength t : Int)).toNat then
    (bitLength t : Int) - (bitLength d : Int)
  else (bitLength t : Int) - (bitLength d : Int) - 1

/-- The integer nearest to `num / den`, a tie going to the even one. -/
def roundHalfEven (num den : Nat) : Nat :=
  if den < 2 * (num % den) ∨ (2 * (num % den) = den ∧ (num / den) % 2 = 1) then num / den + 1
  else num / den

/-- The position of the last binary digit kept when `t / d` is rounded to
binary64: 52 places below its binary exponent, and never below `-1074`. -/
def lastPlace (t d : Nat) : Int := max (exponentOf t d - 52) (-1074)

/-- The significand of `t / d` rounded to binary64, in units of
`2 ^ lastPlace t d`. -/
def significand (t d : Nat) : Nat :=
  roundHalfEven (t * 2 ^ (- lastPlace t d).toNat) (d * 2 ^ (lastPlace t d).toNat)

/-- Rounding of an exact result to binary64, to nearest and ties to even, with
gradual underflow and overflow to infinity. -/
def Double.round (q : ℚ) : Double :=
  if q = 0 then Double.finite 0
  else if 1024 < (bitLength (significand q.num.natAbs q.den) : Int)
      + lastPlace q.num.natAbs q.den then
    (if q < 0 then Double.negInf else Double.posInf)
  else
    Double.finite ((if q < 0 then - (significand q.num.natAbs q.den : ℚ)
        else (significand q.num.natAbs q.den : ℚ)) * (2 : ℚ) ^ lastPlace q.num.natAbs q.den)

/-- Conversion of an unsigned integer to `double`. -/
def Double.ofNat (n : Nat) : Double := Double.round (n : ℚ)

/-- The value of the decimal literal `m / 10^e`, such as `0.2 = 2 / 10^1`. -/
def Double.ofScientific (m e : Nat) : Double := Double.round ((m : ℚ) / (10 : ℚ) ^ e)

/-- The product `x * y` of two `double`s. -/
def Double.mul (x y : Double) : Double :=
  match x, y with
  | Double.nan, _ => Double.nan
  | _, Double.nan => Double.nan
  | Double.finite a, Double.finite b => Double.round (a * b)
  | Double.finite a, Double.posInf =>
    if a = 0 then Double.nan else if 0 < a then Double.posInf else Double.negInf
  | Double.finite a, Double.negInf =>
    if a = 0 then Double.nan else if 0 < a then Double.negInf else Double.posInf
  | Double.posInf, Double.finite b =>
    if b = 0 then Double.nan else if 0 < b then Double.posInf else Double.negInf
  | Double.negInf, Double.finite b =>
    if b = 0 then Double.nan else if 0 < b then Double.negInf else Double.posInf
  | Double.posInf, Double.posInf => Double.posInf
  | Double.posInf, Double.negInf => Double.negInf
  | Double.negInf, Double.posInf => Double.negInf
  | Double.negInf, Double.negInf => Double.posInf

/-- The sum `x + y` of two `double`s. -/
def Double.add (x y : Double) : Double :=
  match x, y with
  | Double.nan, _ => Double.nan
  | _, Double.nan => Double.nan
  | Double.finite a, Double.finite b => Double.round (a + b)
  | Double.posInf, Double.negInf => Double.nan
  | Double.negInf, Double.posInf => Double.nan
  | Double.posInf, _ => Double.posInf
  | _, Double.posInf => Double.posInf
  | Double.negInf, _ => Double.negInf
  | _, Double.negInf => Double.negInf

/-- The comparison `x < y` of two `double`s: false when either is NaN. -/
def Double.lt (x y : Double) : Bool :=
  match x, y with
  | Double.nan, _ => false
  | _, Double.nan => false
  | Double.finite a, Double.finite b => decide (a < b)
  | Double.negInf, Double.negInf => false
  | Double.negInf, _ => true
  | _, Double.negInf => false
  | Double.posInf, _ => false
  | _, Double.posInf => true

/-- The comparison `x > y` of two `double`s. -/
def Double.gt (x y : Double) : Bool := Double.lt y x

/-- The comparison `x <= y` of two `double`s: false when either is NaN. -/
def Double.le (x y : Double) : Bool :=
  match x, y with
  | Double.nan, _ => false
  | _, Double.nan => false
  | Double.finite a, Double.finite b => decide (a ≤ b)
  | Double.negInf, _ => true
  | _, Double.posInf => true
  | Double.posInf, _ => false
  | _, Double.negInf => false

/-! ## `std::map` as an ordered association list -/

/-- The member `std::map::find`: the value stored under key `k`, if any. -/
def mapFind {V : Type} (k : Nat) : List (Nat × V) → Option V
  | [] => none
  | (k', v) :: rest => if k' = k then some v else mapFind k rest

/-- The member `std::map::insert`: adds `(k, v)` at its place in key order
when no entry has key `k`, and leaves the map as it is otherwise. -/
def mapInsert {V : Type} (k : Nat) (v : V) : List (Nat × V) → List (Nat × V)
  | [] => [(k, v)]
  | (k', v') :: rest =>
    if k < k' then (k, v) :: (k', v') :: rest
    else if k' = k then (k', v') :: rest
    else (k', v') :: mapInsert k v rest

/-- Assignment through an iterator or pointer obtained from `find`: the value
stored under key `k` becomes `v`; keys are untouched. -/
def mapAssign {V : Type} (k : Nat) (v : V) : List (Nat × V) → List (Nat × V)
  | [] => []
  | (k', v') :: rest =>
    if k' = k then (k', v) :: rest else (k', v') :: mapAssign k v rest

/-- The statement `m[k] = v` (`std::map::operator[]` followed by assignment):
the entry is created when absent and then holds `v`. -/
def mapIndexAssign {V : Type} (k : Nat) (v : V) (l : List (Nat × V)) :
    List (Nat × V) :=
  mapAssign k v (mapInsert k v l)

/-- The keys of a map, in iteration order. -/
def mapKeys {V : Type} (l : List (Nat × V)) : List Nat := l.map Prod.fst

/-- The value stored under `t` in a map of maps, the empty map when `t` is not
a key: the neighbours known for a terminal. -/
def rowOf {V : Type} (table : List (Nat × List (Nat × V))) (t : Nat) : List (Nat × V) :=
  (mapFind t table).getD []

/-! ## Data model -/

/-- Modelled from the spec: the class `UeMeasure` of the header
`multi-handover-algorithm.h`, which is not among the sources; the three
fields are the ones `UpdateNeighbourMeasurements` writes (lines 375-377). -/
structure UeMeasure where
  m_cellId : Nat
  m_rsrp : Nat
  m_rsrq : Nat
deriving DecidableEq, Repr

/-- Modelled from the spec: the type `MeasurementRow_t` of the header, a
`std::map<uint16_t, Ptr<UeMeasure> >` (line 370) from cell id to measurement. -/
abbrev MeasurementRow_t := List (Nat × UeMeasure)

/-- Modelled from the spec: the type `MeasurementTable_t` of the header, a map
from RNTI to that terminal's row (line 363). -/
abbrev MeasurementTable_t := List (Nat × MeasurementRow_t)

/-- Modelled from the spec: the element type `LteRrcSap::MeasResultEutra` of a
report's neighbour list, with the fields `DoReportUeMeas` reads
(lines 150-152). -/
structure MeasResultEutra where
  physCellId : Nat
  haveRsrqResult : Bool
  rsrqResult : Nat
deriving DecidableEq, Repr

/-- Modelled from the spec: the report type `LteRrcSap::MeasResults`, with the
fields `DoReportUeMeas` reads (lines 142-147). -/
structure MeasResults where
  measId : Nat
  rsrqResult : Nat
  haveMeasResultNeighCells : Bool
  measResultListEutra : List MeasResultEutra
deriving DecidableEq, Repr

/-- The data members of `MultiHandoverAlgorithm` (constructor, lines 44-50, and
the attributes of `GetTypeId`, lines 67-93). -/
structure MultiHandoverAlgorithm where
  m_a2MeasId : Nat
  m_a4MeasId : Nat
  m_servingCellThreshold : Nat
  m_neighbourCellOffset : Nat
  m_threshold : Double
  m_timeToTrigger : Nat
  m_neighbourCellMeasures : MeasurementTable_t
deriving DecidableEq

/-- What the code finds in a file `qoeTorre<id>` or `qosTorre<id>`
(lines 267-282).

* `missing`: the file cannot be opened or is empty
  (`fail() || peek() == EOF`); the value is set to 0.
* `blank left`: the file holds white space only, so the read loop assigns
  nothing; `left` is the value found in the unassigned array element.
* `value v`: every token of the file is converted by `std::stod`; `v` is the
  conversion of the last token (it may be an infinity or NaN).
* `invalid`: `std::stod` throws on a token of the file (no conversion, or out
  of range); nothing catches the exception. -/
inductive CellFile where
  | missing
  | blank (left : Double)
  | value (v : Double)
  | invalid
deriving DecidableEq

/-- Everything `EvaluateHandover` and `DoReportUeMeas` read from outside the
object.

* `now`: `Simulator::Now().GetSeconds()`.
* `assertEnabled`: whether `NS_ASSERT_MSG` is compiled in.
* `rntiCell t`: the value of the variable `b` after the read loop over
  `rnti/<t>.txt` (lines 199-201), the serving cell id of terminal `t`.
* `rntiQoe t`, `rntiQos t`: `none` when `rnti/<t>-qoe.txt` (`-qos.txt`) is not
  open; `some q` when it is, `q` being the value of `qoeAtual` (`qosAtual`)
  after the read loop (lines 245-256).
* `qoeTorre c`, `qosTorre c`: the state of the file `qoeTorre<c>`
  (`qosTorre<c>`). -/
structure Env where
  now : Double
  assertEnabled : Bool
  rntiCell : Nat → Int
  rntiQoe : Nat → Option Double
  rntiQos : Nat → Option Double
  qoeTorre : Nat → CellFile
  qosTorre : Nat → CellFile

/-- One line `cell[i][0..3]` of the candidate array (line 224):
RSRQ, QoE, QoS and cell id. -/
structure Cell where
  rsrq : Double
  qoe : Double
  qos : Double
  id : Int
deriving DecidableEq

/-- The two ways a run ends without returning: the exception of `std::stod`
(lines 276, 282), which nothing catches, and the failed `NS_ASSERT_MSG` of
line 150. -/
inductive Failure where
  | stod
  | assertion
deriving DecidableEq

deriving instance DecidableEq for Except

/-! ## UpdateNeighbourMeasurements (lines 351-388) -/

/-- Lines 369-386: the measurement of `cellId` in a terminal's row is
overwritten when present and created otherwise. -/
def updateRow (row : MeasurementRow_t) (cellId rsrq : Nat) : MeasurementRow_t :=
  match mapFind cellId row with
  | some neighbourCellMeasures =>
    mapAssign cellId
      { neighbourCellMeasures with m_cellId := cellId, m_rsrp := 0, m_rsrq := rsrq } row
  | none =>
    mapIndexAssign cellId { m_cellId := cellId, m_rsrp := 0, m_rsrq := rsrq } row

/-- Lines 351-388.  The row of `rnti` is created empty when the terminal is
unknown (lines 359-366), then updated in place. -/
def UpdateNeighbourMeasurements (self : MultiHandoverAlgorithm)
    (rnti cellId rsrq : Nat) : MultiHandoverAlgorithm :=
  let table :=
    match mapFind rnti self.m_neighbourCellMeasures with
    | none => mapInsert rnti [] self.m_neighbourCellMeasures
    | some _ => self.m_neighbourCellMeasures
  match mapFind rnti table with
  | none => { self with m_neighbourCellMeasures := table }
  | some row =>
    { self with m_neighbourCellMeasures := mapAssign rnti (updateRow row cellId rsrq) table }

/-! ## EvaluateHandover (lines 161-336) -/

/-- The number a read of `rnti/<t>-qoe.txt` or `rnti/<t>-qos.txt` leaves in
`qoeAtual` or `qosAtual`: the sample when the file is open, and the initial
value 0 otherwise (lines 230-231, 245-256). -/
def orZero (sample : Option Double) : Double :=
  match sample with
  | none => Double.finite 0
  | some q => q

/-- Lines 272-276 and 278-282: what is in `cell[i][1]` (`cell[i][2]`) after
the file of a neighbour was processed, or the exception of `std::stod`. -/
def readCellFile (f : CellFile) : Except Failure Double :=
  match f with
  | CellFile.missing => Except.ok (Double.finite 0)
  | CellFile.blank left => Except.ok left
  | CellFile.value v => Except.ok v
  | CellFile.invalid => Except.error Failure.stod

/-- Lines 258-287: the candidate line of one neighbour entry of the row. -/
def neighbourCell (env : Env) (e : Nat × UeMeasure) : Except Failure Cell :=
  match readCellFile (env.qoeTorre e.1) with
  | Except.error f => Except.error f
  | Except.ok qoe =>
    match readCellFile (env.qosTorre e.1) with
    | Except.error f => Except.error f
    | Except.ok qos =>
      Except.ok { rsrq := Double.ofNat e.2.m_rsrq, qoe := qoe, qos := qos, id := (e.1 : Int) }

/-- Lines 258-287: the candidate lines of the neighbours, in row order. -/
def neighbourCells (env : Env) : MeasurementRow_t → Except Failure (List Cell)
  | [] => Except.ok []
  | e :: rest =>
    match neighbourCell env e with
    | Except.error f => Except.error f
    | Except.ok c =>
      match neighbourCells env rest with
      | Except.error f => Except.error f
      | Except.ok cs => Except.ok (c :: cs)

/-- Lines 300-310: the candidate line of the serving cell. -/
def servingCell (servingCellRsrq : Nat) (qoeAtual qosAtual : Double) (b : Int) : Cell :=
  { rsrq := Double.ofNat servingCellRsrq
    qoe := if qoeAtual ≠ Double.finite 0 then qoeAtual else Double.finite 0
    qos := if qosAtual ≠ Double.finite 0 then qosAtual else Double.finite 0
    id := b }

/-- Lines 258-310: the array `cell`, neighbours in row order and then the
serving cell. -/
def buildCells (env : Env) (row : MeasurementRow_t) (servingCellRsrq : Nat)
    (qoeAtual qosAtual : Double) (b : Int) : Except Failure (List Cell) :=
  match neighbourCells env row with
  | Except.error f => Except.error f
  | Except.ok cs => Except.ok (cs ++ [servingCell servingCellRsrq qoeAtual qosAtual b])

/-- Line 313: the composite score `soma[i]`,
`cell[i][0] * 0.2 + cell[i][1] * 0.4 + 0.1 * cell[i][2]`, each product and each
sum rounded to binary64. -/
def soma (c : Cell) : Double :=
  Double.add
    (Double.add (Double.mul c.rsrq (Double.ofScientific 2 1))
      (Double.mul c.qoe (Double.ofScientific 4 1)))
    (Double.mul (Double.ofScientific 1 1) c.qos)

/-- Lines 313-317: one iteration of the selection loop on the pair
`(soma_res, bestNeighbourCellId)`. -/
def selectStep (st : Double × Nat) (c : Cell) : Double × Nat :=
  if Double.gt (soma c) st.1 = true then (soma c, toUint16 c.id) else st

/-- Lines 312-318: the selection loop, from the given initial
`(soma_res, bestNeighbourCellId)`. -/
def selectLoop (cells : List Cell) (init : Double × Nat) : Double × Nat :=
  cells.foldl selectStep init

/-- Lines 204, 227 and 312-318: the final `(soma_res, bestNeighbourCellId)` for
the candidate array `cells`, from `soma_res = 0` and
`bestNeighbourCellId = b`. -/
def selected (cells : List Cell) (b : Int) : Double × Nat :=
  selectLoop cells (Double.finite 0, toUint16 b)

/-- Lines 320-333: the calls of `TriggerHandover` made for a final
`(soma_res, bestNeighbourCellId)`. -/
def trigger (rnti : Nat) (b : Int) (res : Double × Nat) : List (Nat × Nat) :=
  if res.2 ≠ 0 ∧ (res.2 : Int) ≠ b ∧ Double.gt res.1 (Double.finite 5) = true then
    [(rnti, res.2)]
  else []

/-- Lines 258-333: candidate assembly, scoring, selection and trigger for a
terminal that passed the guards. -/
def scoreAndTrigger (env : Env) (self : MultiHandoverAlgorithm) (row : MeasurementRow_t)
    (rnti servingCellRsrq : Nat) :
    Except Failure (MultiHandoverAlgorithm × List (Nat × Nat)) :=
  match buildCells env row servingCellRsrq (orZero (env.rntiQoe rnti))
      (orZero (env.rntiQos rnti)) (env.rntiCell rnti) with
  | Except.error f => Except.error f
  | Except.ok cells =>
    Except.ok (self, trigger rnti (env.rntiCell rnti) (selected cells (env.rntiCell rnti)))

/-- Lines 161-336.  Returns the object after the call and the list of
`TriggerHandover (rnti, cellId)` calls made, or the exception that ended the
call. -/
def EvaluateHandover (env : Env) (self : MultiHandoverAlgorithm)
    (rnti servingCellRsrq _measId : Nat) :
    Except Failure (MultiHandoverAlgorithm × List (Nat × Nat)) :=
  if Double.lt env.now (Double.finite 5) = true then Except.ok (self, [])
  else
    match mapFind rnti self.m_neighbourCellMeasures with
    | none => Except.ok (self, [])
    | some row =>
      match env.rntiQoe rnti with
      | some qoeAtual =>
        if Double.gt qoeAtual (Double.finite 3) = true then Except.ok (self, [])
        else scoreAndTrigger env self row rnti servingCellRsrq
      | none => scoreAndTrigger env self row rnti servingCellRsrq

/-! ## DoReportUeMeas (lines 139-159) -/

/-- Lines 147-153: the loop over the report's neighbour list.  With assertions
compiled in, an entry without RSRQ aborts the run. -/
def reportLoop (env : Env) (rnti : Nat) :
    List MeasResultEutra → MultiHandoverAlgorithm → Except Failure MultiHandoverAlgorithm
  | [], self => Except.ok self
  | it :: rest, self =>
    if env.assertEnabled = true ∧ it.haveRsrqResult = false then
      Except.error Failure.assertion
    else
      reportLoop env rnti rest (UpdateNeighbourMeasurements self rnti it.physCellId it.rsrqResult)

/-- Lines 139-159.  Returns the `TriggerHandover` calls made and either the
object after the call or what ended the run. -/
def DoReportUeMeas (env : Env) (self : MultiHandoverAlgorithm) (rnti : Nat)
    (measResults : MeasResults) : List (Nat × Nat) × Except Failure MultiHandoverAlgorithm :=
  match EvaluateHandover env self rnti measResults.rsrqResult measResults.measId with
  | Except.error f => ([], Except.error f)
  | Except.ok r =>
    if measResults.haveMeasResultNeighCells = true ∧ ¬ measResults.measResultListEutra = [] then
      (r.2, reportLoop env rnti measResults.measResultListEutra r.1)
    else
      (r.2, Except.ok r.1)

/-- The calls an `EvaluateHandover` outcome made: none when the call was ended
by the exception, which is thrown before line 322. -/
def callsOf (r : Except Failure (MultiHandoverAlgorithm × List (Nat × Nat))) :
    List (Nat × Nat) :=
  match r with
  | Except.ok res => res.2
  | Except.error _ => []

/-! ## The selection rule in the words of the specification -/

/-- The specification's selection rule (section 4.3, step 6): the first
candidate, in construction order, whose composite score is the greatest score
among all candidates, that is, a number that no candidate's score exceeds. -/
def firstGreatest (cells : List Cell) : Option Cell :=
  cells.find? (fun c =>
    decide (soma c ≠ Double.nan) && cells.all (fun d => !Double.gt (soma d) (soma c)))

/-- The report's neighbour entries upserted one after the other, in list
order, into the row of `rnti`. -/
def upsertAll (self : MultiHandoverAlgorithm) (rnti : Nat) (l : List MeasResultEutra) :
    MultiHandoverAlgorithm :=
  l.foldl (fun s it => UpdateNeighbourMeasurements s rnti it.physCellId it.rsrqResult) self

/-! ## Store of an outcome, store invariant and reachable objects -/

/-- The measurement table a `DoReportUeMeas` outcome leaves, or what ended the
run. -/
def storeOf (r : Except Failure MultiHandoverAlgorithm) : Except Failure MeasurementTable_t :=
  match r with
  | Except.ok s => Except.ok s.m_neighbourCellMeasures
  | Except.error e => Except.error e

/-- The invariant of a row: every measurement carries the cell id it is stored
under and RSRP 0. -/
def rowInv (row : MeasurementRow_t) : Prop :=
  ∀ x ∈ row, x.2.m_cellId = x.1 ∧ x.2.m_rsrp = 0

/-- The invariant of the store: every terminal's row is non-empty and
satisfies `rowInv`. -/
def storeInv (table : MeasurementTable_t) : Prop :=
  ∀ e ∈ table, e.2 ≠ [] ∧ rowInv e.2

instance (row : MeasurementRow_t) : Decidable (rowInv row) := by
  unfold rowInv
  exact inferInstance

instance (table : MeasurementTable_t) : Decidable (storeInv table) := by
  unfold storeInv
  exact inferInstance

/-- The objects reachable from an object with an empty measurement table by
calls of `UpdateNeighbourMeasurements` and completed calls of
`DoReportUeMeas`, with any arguments and any provider. -/
inductive Reachable : MultiHandoverAlgorithm → Prop
  | init (s : MultiHandoverAlgorithm) : s.m_neighbourCellMeasures = [] → Reachable s
  | update (s : MultiHandoverAlgorithm) (rnti cellId rsrq : Nat) :
      Reachable s → Reachable (UpdateNeighbourMeasurements s rnti cellId rsrq)
  | report (env : Env) (s s' : MultiHandoverAlgorithm) (rnti : Nat) (measResults : MeasResults) :
      Reachable s → (DoReportUeMeas env s rnti measResults).2 = Except.ok s' → Reachable s'

/-! ## Scenarios -/

/-- An object with the constructor's and attributes' default values and the
given measurement table. -/
def withTable (table : MeasurementTable_t) : MultiHandoverAlgorithm :=
  { m_a2MeasId := 0
    m_a4MeasId := 0
    m_servingCellThreshold := 30
    m_neighbourCellOffset := 1
    m_threshold := Double.ofScientific 2 1
    m_timeToTrigger := 256
    m_neighbourCellMeasures := table }

/-- The provider of Scenario A at time `now`: every terminal is served by
cell 1, the terminal's own QoE sample is `terminalQoe`, it has no QoS sample,
and cell 2 has aggregate QoE 4.5 and QoS 0.9. -/
def scenarioEnv (now : Double) (terminalQoe : Option Double) : Env :=
  { now := now
    assertEnabled := true
    rntiCell := fun _ => 1
    rntiQoe := fun _ => terminalQoe
    rntiQos := fun _ => none
    qoeTorre := fun c => if c = 2 then CellFile.value (Double.ofScientific 45 1)
      else CellFile.missing
    qosTorre := fun c => if c = 2 then CellFile.value (Double.ofScientific 9 1)
      else CellFile.missing }

/-- Scenario A's provider at 6 s, the terminal's own QoE sample being 0. -/
def envA : Env := scenarioEnv (Double.finite 6) (some (Double.finite 0))

/-- The store of Scenario A: terminal 7 has reported neighbour cell 2 with
RSRQ 30. -/
def scenarioTable : MeasurementTable_t :=
  [(7, [(2, { m_cellId := 2, m_rsrp := 0, m_rsrq := 30 })])]

/-- The row of terminal 7 in Scenario A's store. -/
def scenarioRow : MeasurementRow_t := [(2, { m_cellId := 2, m_rsrp := 0, m_rsrq := 30 })]

/-- A provider without any quality sample, at 6 s, every terminal being served
by cell 1. -/
def quietEnv : Env :=
  { now := Double.finite 6
    assertEnabled := true
    rntiCell := fun _ => 1
    rntiQoe := fun _ => none
    rntiQos := fun _ => none
    qoeTorre := fun _ => CellFile.missing
    qosTorre := fun _ => CellFile.missing }

/-- The report of Scenario A's neighbour: measurement id 1, serving RSRQ 10 and
one neighbour entry, cell 2 with RSRQ 30. -/
def scenarioReport : MeasResults :=
  { measId := 1
    rsrqResult := 10
    haveMeasResultNeighCells := true
    measResultListEutra := [{ physCellId := 2, haveRsrqResult := true, rsrqResult := 30 }] }

/-- A report whose only neighbour entry, cell 2, carries no RSRQ result. -/
def brokenReport : MeasResults :=
  { measId := 1
    rsrqResult := 10
    haveMeasResultNeighCells := true
    measResultListEutra := [{ physCellId := 2, haveRsrqResult := false, rsrqResult := 0 }] }

/-- The provider `env` with the files `qoeTorre<cell>` and `qosTorre<cell>` in
the states `qoe` and `qos`. -/
def withCellSample (env : Env) (cell : Nat) (qoe qos : CellFile) : Env :=
  { env with
    qoeTorre := fun c => if c = cell then qoe else env.qoeTorre c
    qosTorre := fun c => if c = cell then qos else env.qosTorre c }

/-- The provider `env` with `rnti/<t>.txt` giving the serving cell id `b` for
every terminal. -/
def withServingCell (env : Env) (b : Int) : Env :=
  { env with rntiCell := fun _ => b }

/-- A row with one neighbour, cell `c` stored with RSRQ `r`. -/
def oneNeighbour (c r : Nat) : MeasurementRow_t := [(c, { m_cellId := c, m_rsrp := 0, m_rsrq := r })]

/-- A row with neighbour 2 at RSRQ `r₂` and neighbour 3 at RSRQ `r₃`. -/
def twoNeighbours (r₂ r₃ : Nat) : MeasurementRow_t :=
  [(2, { m_cellId := 2, m_rsrp := 0, m_rsrq := r₂ }),
    (3, { m_cellId := 3, m_rsrp := 0, m_rsrq := r₃ })]

/-- The candidate line of a cell `id` with RSRQ `r` and quality values `qoe`
and `qos`. -/
def mkCell (r : Nat) (qoe qos : Double) (id : Int) : Cell :=
  { rsrq := Double.ofNat r, qoe := qoe, qos := qos, id := id }

/-- The candidate array an assembly produced, empty when the assembly was
ended by the exception. -/
def cellsOf (r : Except Failure (List Cell)) : List Cell :=
  match r with
  | Except.ok cells => cells
  | Except.error _ => []

/-- The candidate array of Scenario A: neighbour 2 (RSRQ 30, QoE 4.5, QoS 0.9)
and then the serving cell 1 with serving RSRQ `servingCellRsrq`. -/
def cellsA (servingCellRsrq : Nat) : List Cell :=
  cellsOf (buildCells envA scenarioRow servingCellRsrq (orZero (envA.rntiQoe 7))
    (orZero (envA.rntiQos 7)) (envA.rntiCell 7))

/-- A provider without terminal samples at 6 s, served by cell 1, in which only
cell 3 has an aggregate sample, QoE 3. -/
def tieEnv : Env := withCellSample quietEnv 3 (CellFile.value (Double.finite 3)) CellFile.missing

/-- The candidate array for `tieEnv`, neighbour 2 at RSRQ 30, neighbour 3 at
RSRQ 24 and serving RSRQ 0. -/
def cellsTie : List Cell :=
  cellsOf (buildCells tieEnv (twoNeighbours 30 24) 0 (orZero (tieEnv.rntiQoe 7))
    (orZero (tieEnv.rntiQos 7)) (tieEnv.rntiCell 7))

/-- The candidate array for `quietEnv`, one neighbour 2 at RSRQ 0 and serving
RSRQ 0. -/
def cellsZero : List Cell :=
  cellsOf (buildCells quietEnv (oneNeighbour 2 0) 0 (orZero (quietEnv.rntiQoe 7))
    (orZero (quietEnv.rntiQos 7)) (quietEnv.rntiCell 7))

/-- Scenario A's provider at 6 s with a file `qoeTorre2` on which `std::stod`
throws. -/
def envInvalid : Env := withCellSample envA 2 CellFile.invalid CellFile.missing

/-- A provider without terminal samples at 6 s, served by cell 1, in which the
file `qoeTorre2` holds the token `nan`, which `std::stod` converts to NaN. -/
def nanEnv : Env := withCellSample quietEnv 2 (CellFile.value Double.nan) CellFile.missing

/-- The candidate array for `nanEnv`, neighbours 2 and 3 both at RSRQ 30 and
serving RSRQ 0. -/
def cellsNan : List Cell :=
  cellsOf (buildCells nanEnv (twoNeighbours 30 30) 0 (orZero (nanEnv.rntiQoe 7))
    (orZero (nanEnv.rntiQos 7)) (nanEnv.rntiCell 7))

/-! ## Lemmas on the association-list model of `std::map` -/

theorem mapFind_mapAssign_self {V : Type} (k : Nat) (v w : V) (l : List (Nat × V))
    (h : mapFind k l = some w) : mapFind k (mapAssign k v l) = some v := by
  induction l with
  | nil => simp [mapFind] at h
  | cons e rest ih =>
    obtain ⟨k', v'⟩ := e
    by_cases hk : k' = k
    · simp [mapAssign, mapFind, hk]
    · simp only [mapFind, hk, if_false] at h
      simp [mapAssign, mapFind, hk, ih h]

theorem mapFind_mapAssign_ne {V : Type} (k k' : Nat) (v : V) (l : List (Nat × V))
    (h : k' ≠ k) : mapFind k' (mapAssign k v l) = mapFind k' l := by
  induction l with
  | nil => simp [mapAssign]
  | cons e rest ih =>
    obtain ⟨k₁, v₁⟩ := e
    by_cases hk : k₁ = k
    · have hk' : ¬ k₁ = k' := fun h' => h (h'.symm.trans hk)
      have hk'' : ¬ k = k' := fun h' => h h'.symm
      simp [mapAssign, mapFind, hk, hk', hk'']
    · by_cases hk' : k₁ = k'
      · subst hk'
        simp [mapAssign, mapFind, hk]
      · simp [mapAssign, mapFind, hk, hk', ih]

theorem mapAssign_of_find {V : Type} (k : Nat) (v : V) (l : List (Nat × V))
    (h : mapFind k l = some v) : mapAssign k v l = l := by
  induction l with
  | nil => rfl
  | cons e rest ih =>
    obtain ⟨k', v'⟩ := e
    by_cases hk : k' = k
    · simp only [mapFind, hk, if_true, Option.some.injEq] at h
      simp [mapAssign, hk, h]
    · simp only [mapFind, hk, if_false] at h
      simp [mapAssign, hk, ih h]

theorem mapAssign_mapAssign {V : Type} (k : Nat) (v w : V) (l : List (Nat × V)) :
    mapAssign k v (mapAssign k w l) = mapAssign k v l := by
  induction l with
  | nil => rfl
  | cons e rest ih =>
    obtain ⟨k', v'⟩ := e
    by_cases hk : k' = k
    · simp [mapAssign, hk]
    · simp [mapAssign, hk, ih]

theorem mapKeys_mapAssign {V : Type} (k : Nat) (v : V) (l : List (Nat × V)) :
    mapKeys (mapAssign k v l) = mapKeys l := by
  induction l with
  | nil => rfl
  | cons e rest ih =>
    obtain ⟨k', v'⟩ := e
    by_cases hk : k' = k
    · simp [mapAssign, mapKeys, hk]
    · simp only [mapKeys] at ih
      simp [mapAssign, mapKeys, hk, ih]

theorem mapFind_mapInsert_self {V : Type} (k : Nat) (v : V) (l : List (Nat × V))
    (h : mapFind k l = none) : mapFind k (mapInsert k v l) = some v := by
  induction l with
  | nil => simp [mapInsert, mapFind]
  | cons e rest ih =>
    obtain ⟨k', v'⟩ := e
    by_cases hk : k' = k
    · simp [mapFind, hk] at h
    · simp only [mapFind, hk, if_false] at h
      by_cases hlt : k < k'
      · simp [mapInsert, mapFind, hlt]
      · simp [mapInsert, mapFind, hlt, hk, ih h]

theorem mapFind_mapInsert_ne {V : Type} (k k' : Nat) (v : V) (l : List (Nat × V))
    (h : k' ≠ k) : mapFind k' (mapInsert k v l) = mapFind k' l := by
  induction l with
  | nil =>
    have hk : ¬ k = k' := fun h' => h h'.symm
    simp [mapInsert, mapFind, hk]
  | cons e rest ih =>
    obtain ⟨k₁, v₁⟩ := e
    have hk : ¬ k = k' := fun h' => h h'.symm
    by_cases hlt : k < k₁
    · simp [mapInsert, mapFind, hlt, hk]
    · by_cases hk₁ : k₁ = k
      · simp [mapInsert, mapFind, hlt, hk₁]
      · by_cases hk' : k₁ = k'
        · subst hk'
          simp [mapInsert, mapFind, hlt, hk₁]
        · simp [mapInsert, mapFind, hlt, hk₁, hk', ih]

theorem mem_mapKeys_mapInsert {V : Type} (k k' : Nat) (v : V) (l : List (Nat × V)) :
    k' ∈ mapKeys (mapInsert k v l) ↔ k' = k ∨ k' ∈ mapKeys l := by
  induction l with
  | nil => simp [mapInsert, mapKeys]
  | cons e rest ih =>
    obtain ⟨k₁, v₁⟩ := e
    simp only [mapKeys] at ih
    by_cases hlt : k < k₁
    · simp [mapInsert, mapKeys, hlt]
    · by_cases hk₁ : k₁ = k
      · subst hk₁
        simp [mapInsert, mapKeys]
      · simp only [mapInsert, hlt, hk₁, if_false, mapKeys, List.map_cons, List.mem_cons, ih]
        tauto

theorem mapFind_isSome_iff_mem_mapKeys {V : Type} (k : Nat) (l : List (Nat × V)) :
    (∃ v, mapFind k l = some v) ↔ k ∈ mapKeys l := by
  induction l with
  | nil => simp [mapFind, mapKeys]
  | cons e rest ih =>
    obtain ⟨k', v'⟩ := e
    simp only [mapKeys] at ih
    by_cases hk : k' = k
    · simp [mapFind, mapKeys, hk]
    · have hk' : ¬ k = k' := fun h' => hk h'.symm
      simp [mapFind, mapKeys, hk, hk', ih]

theorem mapAssign_mapInsert {V : Type} (k : Nat) (v w : V) (l : List (Nat × V))
    (h : mapFind k l = none) : mapAssign k v (mapInsert k w l) = mapInsert k v l := by
  induction l with
  | nil => simp [mapInsert, mapAssign]
  | cons e rest ih =>
    obtain ⟨k', v'⟩ := e
    by_cases hk : k' = k
    · simp [mapFind, hk] at h
    · simp only [mapFind, hk, if_false] at h
      by_cases hlt : k < k'
      · simp [mapInsert, mapAssign, hlt]
      · simp [mapInsert, mapAssign, hlt, hk, ih h]

theorem mem_mapKeys_of_mem {V : Type} (l : List (Nat × V)) (k : Nat) (v : V)
    (h : (k, v) ∈ l) : k ∈ mapKeys l :=
  List.mem_map.2 ⟨(k, v), h, rfl⟩

theorem mem_of_mapFind {V : Type} (l : List (Nat × V)) (k : Nat) (v : V)
    (h : mapFind k l = some v) : (k, v) ∈ l := by
  induction l with
  | nil => simp [mapFind] at h
  | cons e rest ih =>
    obtain ⟨k', v'⟩ := e
    by_cases hk : k' = k
    · simp only [mapFind, hk, if_true, Option.some.injEq] at h
      rw [hk, h]
      exact List.mem_cons_self _ _
    · simp only [mapFind, hk, if_false] at h
      exact List.mem_cons_of_mem _ (ih h)

theorem mem_mapAssign {V : Type} (k : Nat) (v : V) (l : List (Nat × V)) (e : Nat × V)
    (h : e ∈ mapAssign k v l) : e ∈ l ∨ e = (k, v) := by
  induction l with
  | nil => exact absurd h (List.not_mem_nil e)
  | cons x rest ih =>
    obtain ⟨k', v'⟩ := x
    by_cases hk : k' = k
    · simp only [mapAssign, hk, if_true] at h
      rcases List.mem_cons.1 h with heq | hmem
      · exact Or.inr heq
      · exact Or.inl (List.mem_cons_of_mem _ hmem)
    · simp only [mapAssign, hk, if_false] at h
      rcases List.mem_cons.1 h with heq | hmem
      · rw [heq]
        exact Or.inl (List.mem_cons_self _ _)
      · rcases ih hmem with h' | h'
        · exact Or.inl (List.mem_cons_of_mem _ h')
        · exact Or.inr h'

theorem mem_mapInsert {V : Type} (k : Nat) (v : V) (l : List (Nat × V)) (e : Nat × V)
    (h : e ∈ mapInsert k v l) : e ∈ l ∨ e = (k, v) := by
  induction l with
  | nil =>
    simp only [mapInsert] at h
    exact Or.inr (List.mem_singleton.1 h)
  | cons x rest ih =>
    obtain ⟨k', v'⟩ := x
    by_cases hlt : k < k'
    · simp only [mapInsert, hlt, if_true] at h
      rcases List.mem_cons.1 h with heq | hmem
      · exact Or.inr heq
      · exact Or.inl hmem
    · by_cases hk : k' = k
      · subst hk
        simp only [mapInsert, lt_self_iff_false, if_false, if_true] at h
        exact Or.inl h
      · simp only [mapInsert, hlt, hk, if_false] at h
        rcases List.mem_cons.1 h with heq | hmem
        · rw [heq]
          exact Or.inl (List.mem_cons_self _ _)
        · rcases ih hmem with h' | h'
          · exact Or.inl (List.mem_cons_of_mem _ h')
          · exact Or.inr h'

/-! ## Lemmas on `updateRow` and `UpdateNeighbourMeasurements` -/

theorem updateRow_find_self (row : MeasurementRow_t) (c r : Nat) :
    mapFind c (updateRow row c r) = some { m_cellId := c, m_rsrp := 0, m_rsrq := r } := by
  unfold updateRow
  cases h : mapFind c row with
  | none =>
    simp only [mapIndexAssign]
    exact mapFind_mapAssign_self c _ _ _ (mapFind_mapInsert_self c _ row h)
  | some m => exact mapFind_mapAssign_self c _ m row h

theorem updateRow_find_ne (row : MeasurementRow_t) (c c' r : Nat) (h : c' ≠ c) :
    mapFind c' (updateRow row c r) = mapFind c' row := by
  unfold updateRow
  cases hf : mapFind c row with
  | none =>
    simp only [mapIndexAssign]
    rw [mapFind_mapAssign_ne c c' _ _ h, mapFind_mapInsert_ne c c' _ _ h]
  | some m => exact mapFind_mapAssign_ne c c' _ row h

theorem updateRow_keys (row : MeasurementRow_t) (c c' r : Nat) :
    c' ∈ mapKeys (updateRow row c r) ↔ c' = c ∨ c' ∈ mapKeys row := by
  unfold updateRow
  cases hf : mapFind c row with
  | none =>
    simp only [mapIndexAssign, mapKeys_mapAssign]
    exact mem_mapKeys_mapInsert c c' _ row
  | some m =>
    simp only [mapKeys_mapAssign]
    have hc : c ∈ mapKeys row := (mapFind_isSome_iff_mem_mapKeys c row).1 ⟨m, hf⟩
    constructor
    · intro h'
      exact Or.inr h'
    · rintro (h' | h')
      · rw [h']
        exact hc
      · exact h'

theorem updateRow_of_find (row : MeasurementRow_t) (c r : Nat)
    (h : mapFind c row = some { m_cellId := c, m_rsrp := 0, m_rsrq := r }) :
    updateRow row c r = row := by
  unfold updateRow
  rw [h]
  exact mapAssign_of_find c _ _ h

theorem updateRow_idem (row : MeasurementRow_t) (c r : Nat) :
    updateRow (updateRow row c r) c r = updateRow row c r :=
  updateRow_of_find _ c r (updateRow_find_self row c r)

/-- The table after `UpdateNeighbourMeasurements`, in closed form: the row of
the terminal (empty when the terminal is unknown) is updated and stored. -/
theorem UpdateNeighbourMeasurements_table (self : MultiHandoverAlgorithm) (t c r : Nat) :
    (UpdateNeighbourMeasurements self t c r).m_neighbourCellMeasures =
      match mapFind t self.m_neighbourCellMeasures with
      | none => mapInsert t (updateRow [] c r) self.m_neighbourCellMeasures
      | some row => mapAssign t (updateRow row c r) self.m_neighbourCellMeasures := by
  unfold UpdateNeighbourMeasurements
  cases h : mapFind t self.m_neighbourCellMeasures with
  | none =>
    simp only [mapFind_mapInsert_self t _ _ h]
    exact mapAssign_mapInsert t _ _ _ h
  | some row => simp only [h]

theorem UpdateNeighbourMeasurements_find_self (self : MultiHandoverAlgorithm) (t c r : Nat) :
    mapFind t (UpdateNeighbourMeasurements self t c r).m_neighbourCellMeasures =
      some (updateRow (rowOf self.m_neighbourCellMeasures t) c r) := by
  rw [UpdateNeighbourMeasurements_table]
  unfold rowOf
  cases h : mapFind t self.m_neighbourCellMeasures with
  | none => simpa using mapFind_mapInsert_self t _ _ h
  | some row => simpa using mapFind_mapAssign_self t _ row _ h

theorem UpdateNeighbourMeasurements_find_ne (self : MultiHandoverAlgorithm) (t t' c r : Nat)
    (h : t' ≠ t) :
    mapFind t' (UpdateNeighbourMeasurements self t c r).m_neighbourCellMeasures =
      mapFind t' self.m_neighbourCellMeasures := by
  rw [UpdateNeighbourMeasurements_table]
  cases hf : mapFind t self.m_neighbourCellMeasures with
  | none => simpa using mapFind_mapInsert_ne t t' _ _ h
  | some row => simpa using mapFind_mapAssign_ne t t' _ _ h

theorem UpdateNeighbourMeasurements_keys (self : MultiHandoverAlgorithm) (t t' c r : Nat) :
    t' ∈ mapKeys (UpdateNeighbourMeasurements self t c r).m_neighbourCellMeasures ↔
      t' = t ∨ t' ∈ mapKeys self.m_neighbourCellMeasures := by
  rw [UpdateNeighbourMeasurements_table]
  cases hf : mapFind t self.m_neighbourCellMeasures with
  | none => simpa using mem_mapKeys_mapInsert t t' _ _
  | some row =>
    simp only [mapKeys_mapAssign]
    have hc : t ∈ mapKeys self.m_neighbourCellMeasures :=
      (mapFind_isSome_iff_mem_mapKeys t _).1 ⟨row, hf⟩
    constructor
    · intro h'
      exact Or.inr h'
    · rintro (h' | h')
      · rw [h']
        exact hc
      · exact h'

theorem UpdateNeighbourMeasurements_eq (self : MultiHandoverAlgorithm) (t c r : Nat) :
    UpdateNeighbourMeasurements self t c r =
      { self with
        m_neighbourCellMeasures :=
          (UpdateNeighbourMeasurements self t c r).m_neighbourCellMeasures } := by
  unfold UpdateNeighbourMeasurements
  cases h : mapFind t self.m_neighbourCellMeasures with
  | none => simp only [mapFind_mapInsert_self t _ _ h]
  | some row => simp only [h]

theorem updateRow_mem (row : MeasurementRow_t) (c r : Nat) (x : Nat × UeMeasure)
    (h : x ∈ updateRow row c r) :
    x ∈ row ∨ x = (c, { m_cellId := c, m_rsrp := 0, m_rsrq := r }) := by
  unfold updateRow at h
  cases hf : mapFind c row with
  | none =>
    rw [hf] at h
    simp only [mapIndexAssign] at h
    rcases mem_mapAssign c _ _ x h with h' | h'
    · exact mem_mapInsert c _ row x h'
    · exact Or.inr h'
  | some m =>
    rw [hf] at h
    exact mem_mapAssign c _ row x h

theorem updateRow_ne_nil (row : MeasurementRow_t) (c r : Nat) : updateRow row c r ≠ [] := by
  intro h
  have hfind := updateRow_find_self row c r
  rw [h] at hfind
  simp [mapFind] at hfind

theorem updateRow_rowInv (row : MeasurementRow_t) (c r : Nat) (h : rowInv row) :
    rowInv (updateRow row c r) := by
  intro x hx
  rcases updateRow_mem row c r x hx with h' | h'
  · exact h x h'
  · rw [h']
    exact ⟨rfl, rfl⟩

theorem UpdateNeighbourMeasurements_storeInv (self : MultiHandoverAlgorithm) (t c r : Nat)
    (h : storeInv self.m_neighbourCellMeasures) :
    storeInv (UpdateNeighbourMeasurements self t c r).m_neighbourCellMeasures := by
  rw [UpdateNeighbourMeasurements_table]
  cases hf : mapFind t self.m_neighbourCellMeasures with
  | none =>
    intro e he
    rcases mem_mapInsert t _ _ e he with h' | h'
    · exact h e h'
    · rw [h']
      exact ⟨updateRow_ne_nil [] c r,
        updateRow_rowInv [] c r (fun x hx => absurd hx (List.not_mem_nil x))⟩
  | some row =>
    intro e he
    rcases mem_mapAssign t _ _ e he with h' | h'
    · exact h e h'
    · rw [h']
      exact ⟨updateRow_ne_nil row c r,
        updateRow_rowInv row c r (h (t, row) (mem_of_mapFind _ t row hf)).2⟩

/-- The row of `rnti` is always found at line 368 of
`UpdateNeighbourMeasurements`, so the assertions of lines 364 and 368 hold. -/
theorem UpdateNeighbourMeasurements_row_found (table : MeasurementTable_t) (rnti : Nat) :
    ∃ row, mapFind rnti
      (match mapFind rnti table with
        | none => mapInsert rnti [] table
        | some _ => table) = some row := by
  cases h : mapFind rnti table with
  | none => exact ⟨[], mapFind_mapInsert_self rnti [] table h⟩
  | some row => exact ⟨row, h⟩

theorem UpdateNeighbourMeasurements_table_congr (s₁ s₂ : MultiHandoverAlgorithm)
    (t c r : Nat) (h : s₁.m_neighbourCellMeasures = s₂.m_neighbourCellMeasures) :
    (UpdateNeighbourMeasurements s₁ t c r).m_neighbourCellMeasures =
      (UpdateNeighbourMeasurements s₂ t c r).m_neighbourCellMeasures := by
  rw [UpdateNeighbourMeasurements_table, UpdateNeighbourMeasurements_table, h]

/-! ## The measurement store: C8, C9 -/

/-- C8 (upsert, last write wins).  After `UpdateNeighbourMeasurements (t, c, r)`
the terminal `t` has a row; in it the entry of `c` holds cell id `c`, RSRP 0
and RSRQ `r`, whatever it held before; the keys of the row are the previous
keys of `t` (none when `t` was unknown) plus `c`; every other entry of the row
is unchanged; the row of every other terminal is unchanged; and the terminals
of the table are the previous ones plus `t`. -/
theorem UpdateNeighbourMeasurements_upsert (self : MultiHandoverAlgorithm) (t c r : Nat) :
    ∃ row,
      mapFind t (UpdateNeighbourMeasurements self t c r).m_neighbourCellMeasures = some row ∧
      mapFind c row = some { m_cellId := c, m_rsrp := 0, m_rsrq := r } ∧
      (∀ c', c' ∈ mapKeys row ↔ c' = c ∨ c' ∈ mapKeys (rowOf self.m_neighbourCellMeasures t)) ∧
      (∀ c', c' ≠ c → mapFind c' row = mapFind c' (rowOf self.m_neighbourCellMeasures t)) ∧
      (∀ t', t' ≠ t →
        mapFind t' (UpdateNeighbourMeasurements self t c r).m_neighbourCellMeasures =
          mapFind t' self.m_neighbourCellMeasures) ∧
      (∀ t', t' ∈ mapKeys (UpdateNeighbourMeasurements self t c r).m_neighbourCellMeasures ↔
        t' = t ∨ t' ∈ mapKeys self.m_neighbourCellMeasures) :=
  ⟨updateRow (rowOf self.m_neighbourCellMeasures t) c r,
    UpdateNeighbourMeasurements_find_self self t c r,
    updateRow_find_self _ c r,
    fun c' => updateRow_keys _ c c' r,
    fun c' h => updateRow_find_ne _ c c' r h,
    fun t' h => UpdateNeighbourMeasurements_find_ne self t t' c r h,
    fun t' => UpdateNeighbourMeasurements_keys self t t' c r⟩

/-- C9 (idempotence).  Calling `UpdateNeighbourMeasurements (t, c, r)` a second
time with the same arguments leaves the object, and so the whole measurement
table with every stored cell id, RSRP and RSRQ, exactly as the first call
left it. -/
theorem UpdateNeighbourMeasurements_idempotent (self : MultiHandoverAlgorithm) (t c r : Nat) :
    UpdateNeighbourMeasurements (UpdateNeighbourMeasurements self t c r) t c r =
      UpdateNeighbourMeasurements self t c r := by
  have hfind := UpdateNeighbourMeasurements_find_self self t c r
  have htable :
      (UpdateNeighbourMeasurements (UpdateNeighbourMeasurements self t c r) t c
          r).m_neighbourCellMeasures =
        (UpdateNeighbourMeasurements self t c r).m_neighbourCellMeasures := by
    rw [UpdateNeighbourMeasurements_table (UpdateNeighbourMeasurements self t c r), hfind]
    simp only [updateRow_idem]
    exact mapAssign_of_find t _ _ hfind
  rw [UpdateNeighbourMeasurements_eq (UpdateNeighbourMeasurements self t c r), htable]

/-! ## Lemmas on the comparison of `double`s -/

theorem Double.lt_ne_nan {a b : Double} (h : Double.lt a b = true) :
    a ≠ Double.nan ∧ b ≠ Double.nan := by
  cases a <;> cases b <;> simp_all [Double.lt]

theorem Double.lt_irrefl (a : Double) : Double.lt a a = false := by
  cases a <;> simp [Double.lt]

theorem Double.lt_asymm {a b : Double} (h : Double.lt a b = true) : Double.lt b a = false := by
  cases a <;> cases b <;> simp_all [Double.lt]
  exact le_of_lt h

theorem Double.lt_trans {a b c : Double} (h₁ : Double.lt a b = true)
    (h₂ : Double.lt b c = true) : Double.lt a c = true := by
  cases a <;> cases b <;> cases c <;> simp_all [Double.lt]
  exact h₁.trans h₂

/-- If `x` is not above `s` and `s` is not above `f`, then `x` is not
above `f`. -/
theorem Double.not_lt_trans {x s f : Double} (h₁ : Double.lt s x = false)
    (h₂ : Double.lt f s = false) (hs : s ≠ Double.nan) (hf : f ≠ Double.nan) :
    Double.lt f x = false := by
  cases x <;> cases s <;> cases f <;> simp_all [Double.lt]
  exact le_trans h₁ h₂

/-- If `a` is below `d` and `c` is a number not below `d`, then `a` is
below `c`. -/
theorem Double.lt_of_lt_of_not_lt {a d c : Double} (h₁ : Double.lt a d = true)
    (h₂ : Double.lt c d = false) (hc : c ≠ Double.nan) : Double.lt a c = true := by
  cases a <;> cases d <;> cases c <;> simp_all [Double.lt]
  exact lt_of_lt_of_le h₁ h₂

/-- If `a` is not above `z` and `c` is above `z`, then `a` is NaN or below
`c`. -/
theorem Double.nan_or_lt {z a c : Double} (h₁ : Double.lt z a = false)
    (h₂ : Double.lt z c = true) : a = Double.nan ∨ Double.lt a c = true := by
  cases z <;> cases a <;> cases c <;> simp_all [Double.lt]
  exact lt_of_le_of_lt h₁ h₂

theorem Double.le_of_not_lt {a b : Double} (ha : a ≠ Double.nan) (hb : b ≠ Double.nan)
    (h : Double.lt b a = false) : Double.le a b = true := by
  cases a <;> cases b <;> simp_all [Double.lt, Double.le]

theorem Double.mul_swap (x y : Double) : Double.mul x y = Double.mul y x := by
  cases x <;> cases y <;> simp [Double.mul, mul_comm]

/-! ## Lemmas on the selection loop -/

theorem selectLoop_nil (st : Double × Nat) : selectLoop [] st = st := rfl

theorem selectLoop_cons (c : Cell) (l : List Cell) (st : Double × Nat) :
    selectLoop (c :: l) st = selectLoop l (selectStep st c) := rfl

theorem selectLoop_append (l₁ l₂ : List Cell) (st : Double × Nat) :
    selectLoop (l₁ ++ l₂) st = selectLoop l₂ (selectLoop l₁ st) := by
  simp [selectLoop, List.foldl_append]

/-- A candidate that does not score above `soma_res` changes nothing. -/
theorem selectStep_of_not_gt (st : Double × Nat) (c : Cell)
    (h : Double.gt (soma c) st.1 = false) : selectStep st c = st := by
  unfold selectStep
  rw [h]
  rfl

/-- A candidate that scores above `soma_res` becomes the selection. -/
theorem selectStep_of_gt (st : Double × Nat) (c : Cell) (h : Double.gt (soma c) st.1 = true) :
    selectStep st c = (soma c, toUint16 c.id) := by
  unfold selectStep
  rw [if_pos h]

theorem selectLoop_stay (l : List Cell) (st : Double × Nat)
    (h : ∀ d ∈ l, Double.gt (soma d) st.1 = false) : selectLoop l st = st := by
  induction l with
  | nil => rfl
  | cons c rest ih =>
    rw [selectLoop_cons, selectStep_of_not_gt st c (h c (List.mem_cons_self c rest))]
    exact ih (fun d hd => h d (List.mem_cons_of_mem c hd))

/-- A bound above the initial `soma_res` and above every candidate that is a
number stays above `soma_res`. -/
theorem selectLoop_below (l : List Cell) (st : Double × Nat) (S : Double)
    (hst : Double.gt S st.1 = true)
    (h : ∀ d ∈ l, Double.gt S (soma d) = true ∨ soma d = Double.nan) :
    Double.gt S (selectLoop l st).1 = true := by
  induction l generalizing st with
  | nil => exact hst
  | cons c rest ih =>
    rw [selectLoop_cons]
    apply ih
    · cases hc : Double.gt (soma c) st.1 with
      | true =>
        rw [selectStep_of_gt st c hc]
        rcases h c (List.mem_cons_self c rest) with h' | h'
        · exact h'
        · exact absurd h' (Double.lt_ne_nan hc).2
      | false =>
        rw [selectStep_of_not_gt st c hc]
        exact hst
    · exact fun d hd => h d (List.mem_cons_of_mem c hd)

/-- The loop selects `c` when `c` scores above the initial `soma_res`, above
every candidate before it that is a number, and no candidate after it scores
above `c`. -/
theorem selectLoop_first_max (l₁ l₂ : List Cell) (c : Cell) (st : Double × Nat)
    (hst : Double.gt (soma c) st.1 = true)
    (h₁ : ∀ d ∈ l₁, Double.gt (soma c) (soma d) = true ∨ soma d = Double.nan)
    (h₂ : ∀ d ∈ l₂, Double.gt (soma d) (soma c) = false) :
    selectLoop (l₁ ++ c :: l₂) st = (soma c, toUint16 c.id) := by
  rw [selectLoop_append, selectLoop_cons,
    selectStep_of_gt _ c (selectLoop_below l₁ st (soma c) hst h₁)]
  exact selectLoop_stay l₂ _ h₂

/-- The loop either keeps its initial state or ends on one of the candidates,
with that candidate's score. -/
theorem selectLoop_cases (l : List Cell) (st : Double × Nat) :
    selectLoop l st = st ∨
      ∃ c ∈ l, soma c ≠ Double.nan ∧ selectLoop l st = (soma c, toUint16 c.id) := by
  induction l generalizing st with
  | nil => exact Or.inl rfl
  | cons c rest ih =>
    rw [selectLoop_cons]
    cases hc : Double.gt (soma c) st.1 with
    | true =>
      rw [selectStep_of_gt st c hc]
      rcases ih (soma c, toUint16 c.id) with h | ⟨d, hd, hnan, hsel⟩
      · exact Or.inr ⟨c, List.mem_cons_self c rest, (Double.lt_ne_nan hc).2, h⟩
      · exact Or.inr ⟨d, List.mem_cons_of_mem c hd, hnan, hsel⟩
    | false =>
      rw [selectStep_of_not_gt st c hc]
      rcases ih st with h | ⟨d, hd, hnan, hsel⟩
      · exact Or.inl h
      · exact Or.inr ⟨d, List.mem_cons_of_mem c hd, hnan, hsel⟩

theorem selectStep_fst (st : Double × Nat) (c : Cell) (hst : st.1 ≠ Double.nan) :
    (selectStep st c).1 ≠ Double.nan ∧ Double.gt st.1 (selectStep st c).1 = false ∧
      Double.gt (soma c) (selectStep st c).1 = false := by
  cases hc : Double.gt (soma c) st.1 with
  | true =>
    rw [selectStep_of_gt st c hc]
    exact ⟨(Double.lt_ne_nan hc).2, Double.lt_asymm hc, Double.lt_irrefl _⟩
  | false =>
    rw [selectStep_of_not_gt st c hc]
    exact ⟨hst, Double.lt_irrefl _, hc⟩

/-- From an initial `soma_res` that is a number, the final `soma_res` is a
number, the initial one is not above it, and no candidate scores above it. -/
theorem selectLoop_fst (l : List Cell) (st : Double × Nat) (hst : st.1 ≠ Double.nan) :
    (selectLoop l st).1 ≠ Double.nan ∧ Double.gt st.1 (selectLoop l st).1 = false ∧
      ∀ d ∈ l, Double.gt (soma d) (selectLoop l st).1 = false := by
  induction l generalizing st with
  | nil => exact ⟨hst, Double.lt_irrefl _, fun d hd => absurd hd (List.not_mem_nil d)⟩
  | cons c rest ih =>
    rw [selectLoop_cons]
    obtain ⟨hnan', hinit', hc'⟩ := selectStep_fst st c hst
    obtain ⟨hnan, hinit, hrest⟩ := ih (selectStep st c) hnan'
    refine ⟨hnan, Double.not_lt_trans hinit' hinit hnan' hnan, fun d hd => ?_⟩
    rcases List.mem_cons.1 hd with heq | hmem
    · rw [heq]
      exact Double.not_lt_trans hc' hinit hnan' hnan
    · exact hrest d hmem

/-- A candidate list with a score that is a number has a candidate whose score
is a number that no candidate's score exceeds. -/
theorem exists_greatest (l : List Cell) (h : ∃ d ∈ l, soma d ≠ Double.nan) :
    ∃ c ∈ l, soma c ≠ Double.nan ∧ ∀ d ∈ l, Double.gt (soma d) (soma c) = false := by
  induction l with
  | nil =>
    obtain ⟨d, hd, _⟩ := h
    exact absurd hd (List.not_mem_nil d)
  | cons a rest ih =>
    by_cases hrest : ∃ d ∈ rest, soma d ≠ Double.nan
    · obtain ⟨m, hm, hmnan, hmax⟩ := ih hrest
      cases ham : Double.gt (soma a) (soma m) with
      | false =>
        refine ⟨m, List.mem_cons_of_mem a hm, hmnan, fun d hd => ?_⟩
        rcases List.mem_cons.1 hd with heq | hmem
        · rw [heq]
          exact ham
        · exact hmax d hmem
      | true =>
        have hanan : soma a ≠ Double.nan := (Double.lt_ne_nan ham).2
        refine ⟨a, List.mem_cons_self a rest, hanan, fun d hd => ?_⟩
        rcases List.mem_cons.1 hd with heq | hmem
        · rw [heq]
          exact Double.lt_irrefl _
        · cases hda : Double.gt (soma d) (soma a) with
          | false => rfl
          | true =>
            have hmd : Double.lt (soma m) (soma d) = true := Double.lt_trans ham hda
            have hno : Double.lt (soma m) (soma d) = false := hmax d hmem
            rw [hmd] at hno
            exact absurd hno (by decide)
    · obtain ⟨d, hd, hdnan⟩ := h
      have hda : d = a := by
        rcases List.mem_cons.1 hd with heq | hmem
        · exact heq
        · exact absurd ⟨d, hmem, hdnan⟩ hrest
      rw [hda] at hdnan
      refine ⟨a, List.mem_cons_self a rest, hdnan, fun x hx => ?_⟩
      rcases List.mem_cons.1 hx with heq | hmem
      · rw [heq]
        exact Double.lt_irrefl _
      · have hxnan : soma x = Double.nan := by
          by_contra hne
          exact hrest ⟨x, hmem, hne⟩
        unfold Double.gt
        rw [hxnan]
        cases soma a <;> rfl

/-! ## Lemmas on candidate assembly -/

theorem toUint16_natCast (c : Nat) (h : c < 65536) : toUint16 (c : Int) = c := by
  unfold toUint16
  omega

theorem toUint16_of_range (b : Int) (h₀ : 0 ≤ b) (h₁ : b < 65536) : (toUint16 b : Int) = b := by
  unfold toUint16
  omega

/-- What a candidate line built for a neighbour entry holds. -/
theorem neighbourCell_ok (env : Env) (e : Nat × UeMeasure) (c : Cell)
    (h : neighbourCell env e = Except.ok c) :
    c.rsrq = Double.ofNat e.2.m_rsrq ∧ readCellFile (env.qoeTorre e.1) = Except.ok c.qoe ∧
      readCellFile (env.qosTorre e.1) = Except.ok c.qos ∧ c.id = (e.1 : Int) := by
  unfold neighbourCell at h
  cases hqoe : readCellFile (env.qoeTorre e.1) with
  | error f =>
    rw [hqoe] at h
    exact absurd h (by simp)
  | ok qoe =>
    cases hqos : readCellFile (env.qosTorre e.1) with
    | error f =>
      rw [hqoe, hqos] at h
      exact absurd h (by simp)
    | ok qos =>
      rw [hqoe, hqos] at h
      simp only [Except.ok.injEq] at h
      rw [← h]
      exact ⟨rfl, rfl, rfl, rfl⟩

theorem readCellFile_error (f : CellFile) (x : Failure) (h : readCellFile f = Except.error x) :
    x = Failure.stod ∧ f = CellFile.invalid := by
  cases f <;> simp [readCellFile] at h
  exact ⟨h.symm, rfl⟩

theorem readCellFile_ok_of_valid (f : CellFile) (h : f ≠ CellFile.invalid) :
    ∃ v, readCellFile f = Except.ok v := by
  cases f with
  | missing => exact ⟨_, rfl⟩
  | blank left => exact ⟨_, rfl⟩
  | value v => exact ⟨_, rfl⟩
  | invalid => exact absurd rfl h

/-- A neighbour entry fails to give a candidate line only by the exception of
`std::stod`, on one of the two files of its cell. -/
theorem neighbourCell_error (env : Env) (e : Nat × UeMeasure) (x : Failure)
    (h : neighbourCell env e = Except.error x) :
    x = Failure.stod ∧
      (env.qoeTorre e.1 = CellFile.invalid ∨ env.qosTorre e.1 = CellFile.invalid) := by
  unfold neighbourCell at h
  cases hqoe : readCellFile (env.qoeTorre e.1) with
  | error f =>
    rw [hqoe] at h
    simp only [Except.error.injEq] at h
    rw [← h]
    exact ⟨(readCellFile_error _ f hqoe).1, Or.inl (readCellFile_error _ f hqoe).2⟩
  | ok qoe =>
    cases hqos : readCellFile (env.qosTorre e.1) with
    | error f =>
      rw [hqoe, hqos] at h
      simp only [Except.error.injEq] at h
      rw [← h]
      exact ⟨(readCellFile_error _ f hqos).1, Or.inr (readCellFile_error _ f hqos).2⟩
    | ok qos =>
      rw [hqoe, hqos] at h
      exact absurd h (by simp)

theorem neighbourCell_ok_of_valid (env : Env) (e : Nat × UeMeasure)
    (hqoe : env.qoeTorre e.1 ≠ CellFile.invalid) (hqos : env.qosTorre e.1 ≠ CellFile.invalid) :
    ∃ c, neighbourCell env e = Except.ok c := by
  obtain ⟨v₁, h₁⟩ := readCellFile_ok_of_valid _ hqoe
  obtain ⟨v₂, h₂⟩ := readCellFile_ok_of_valid _ hqos
  unfold neighbourCell
  rw [h₁, h₂]
  exact ⟨_, rfl⟩

theorem neighbourCells_cons_ok (env : Env) (e : Nat × UeMeasure) (rest : MeasurementRow_t)
    (cs : List Cell) (h : neighbourCells env (e :: rest) = Except.ok cs) :
    ∃ c cs', neighbourCell env e = Except.ok c ∧ neighbourCells env rest = Except.ok cs' ∧
      cs = c :: cs' := by
  unfold neighbourCells at h
  cases hc : neighbourCell env e with
  | error f =>
    rw [hc] at h
    exact absurd h (by simp)
  | ok c =>
    cases hr : neighbourCells env rest with
    | error f =>
      rw [hc, hr] at h
      exact absurd h (by simp)
    | ok cs' =>
      rw [hc, hr] at h
      simp only [Except.ok.injEq] at h
      exact ⟨c, cs', rfl, rfl, h.symm⟩

theorem neighbourCells_cons_of_ok (env : Env) (e : Nat × UeMeasure) (rest : MeasurementRow_t)
    (c : Cell) (cs : List Cell) (hc : neighbourCell env e = Except.ok c)
    (hr : neighbourCells env rest = Except.ok cs) :
    neighbourCells env (e :: rest) = Except.ok (c :: cs) := by
  unfold neighbourCells
  rw [hc, hr]

/-- Every candidate line of the neighbours comes from an entry of the row. -/
theorem neighbourCells_mem (env : Env) (row : MeasurementRow_t) (cs : List Cell)
    (h : neighbourCells env row = Except.ok cs) :
    ∀ d ∈ cs, ∃ e ∈ row, neighbourCell env e = Except.ok d := by
  induction row generalizing cs with
  | nil =>
    simp only [neighbourCells, Except.ok.injEq] at h
    intro d hd
    rw [← h] at hd
    exact absurd hd (List.not_mem_nil d)
  | cons e rest ih =>
    obtain ⟨c, cs', hc, hr, hcs⟩ := neighbourCells_cons_ok env e rest cs h
    intro d hd
    rw [hcs] at hd
    rcases List.mem_cons.1 hd with heq | hmem
    · exact ⟨e, List.mem_cons_self e rest, by rw [heq]; exact hc⟩
    · obtain ⟨x, hx, hxd⟩ := ih cs' hr d hmem
      exact ⟨x, List.mem_cons_of_mem e hx, hxd⟩

/-- Every entry of the row gives one of the candidate lines. -/
theorem neighbourCells_mem_row (env : Env) (row : MeasurementRow_t) (cs : List Cell)
    (h : neighbourCells env row = Except.ok cs) :
    ∀ e ∈ row, ∃ d ∈ cs, neighbourCell env e = Except.ok d := by
  induction row generalizing cs with
  | nil => exact fun e he => absurd he (List.not_mem_nil e)
  | cons x rest ih =>
    obtain ⟨c, cs', hc, hr, hcs⟩ := neighbourCells_cons_ok env x rest cs h
    intro e he
    rw [hcs]
    rcases List.mem_cons.1 he with heq | hmem
    · exact ⟨c, List.mem_cons_self c cs', by rw [heq]; exact hc⟩
    · obtain ⟨d, hd, hed⟩ := ih cs' hr e hmem
      exact ⟨d, List.mem_cons_of_mem c hd, hed⟩

/-- The candidate lines of a row split as the row does. -/
theorem neighbourCells_split (env : Env) (pre post : MeasurementRow_t) (e : Nat × UeMeasure)
    (cs : List Cell) (h : neighbourCells env (pre ++ e :: post) = Except.ok cs) :
    ∃ cpre c cpost, neighbourCells env pre = Except.ok cpre ∧
      neighbourCell env e = Except.ok c ∧ neighbourCells env post = Except.ok cpost ∧
      cs = cpre ++ c :: cpost := by
  induction pre generalizing cs with
  | nil =>
    obtain ⟨c, cs', hc, hr, hcs⟩ := neighbourCells_cons_ok env e post cs h
    exact ⟨[], c, cs', rfl, hc, hr, hcs⟩
  | cons x rest ih =>
    obtain ⟨c, cs', hc, hr, hcs⟩ := neighbourCells_cons_ok env x (rest ++ e :: post) cs h
    obtain ⟨cpre, c', cpost, hpre, hc', hpost, hsplit⟩ := ih cs' hr
    refine ⟨c :: cpre, c', cpost, neighbourCells_cons_of_ok env x rest c cpre hc hpre, hc', hpost, ?_⟩
    rw [hcs, hsplit]
    rfl

theorem neighbourCells_ok_of_forall (env : Env) (row : MeasurementRow_t)
    (h : ∀ e ∈ row, ∃ c, neighbourCell env e = Except.ok c) :
    ∃ cs, neighbourCells env row = Except.ok cs := by
  induction row with
  | nil => exact ⟨[], rfl⟩
  | cons e rest ih =>
    obtain ⟨c, hc⟩ := h e (List.mem_cons_self e rest)
    obtain ⟨cs, hcs⟩ := ih (fun x hx => h x (List.mem_cons_of_mem e hx))
    exact ⟨c :: cs, neighbourCells_cons_of_ok env e rest c cs hc hcs⟩

/-- The candidate assembly fails only by the exception of `std::stod`, on a
file of a cell that is a key of the row. -/
theorem neighbourCells_error (env : Env) (row : MeasurementRow_t) (x : Failure)
    (h : neighbourCells env row = Except.error x) :
    x = Failure.stod ∧ ∃ c ∈ mapKeys row,
      env.qoeTorre c = CellFile.invalid ∨ env.qosTorre c = CellFile.invalid := by
  induction row generalizing x with
  | nil => simp [neighbourCells] at h
  | cons e rest ih =>
    unfold neighbourCells at h
    cases hc : neighbourCell env e with
    | error f =>
      rw [hc] at h
      simp only [Except.error.injEq] at h
      rw [← h]
      exact ⟨(neighbourCell_error env e f hc).1, e.1,
        List.mem_map.2 ⟨e, List.mem_cons_self e rest, rfl⟩, (neighbourCell_error env e f hc).2⟩
    | ok c =>
      cases hr : neighbourCells env rest with
      | error f =>
        rw [hc, hr] at h
        simp only [Except.error.injEq] at h
        rw [← h]
        obtain ⟨hf, k, hk, hinv⟩ := ih f hr
        obtain ⟨y, hy, hyk⟩ := List.mem_map.1 hk
        exact ⟨hf, k, List.mem_map.2 ⟨y, List.mem_cons_of_mem e hy, hyk⟩, hinv⟩
      | ok cs =>
        rw [hc, hr] at h
        exact absurd h (by simp)

theorem buildCells_ok (env : Env) (row : MeasurementRow_t) (servingCellRsrq : Nat)
    (qoeAtual qosAtual : Double) (b : Int) (cells : List Cell)
    (h : buildCells env row servingCellRsrq qoeAtual qosAtual b = Except.ok cells) :
    ∃ cs, neighbourCells env row = Except.ok cs ∧
      cells = cs ++ [servingCell servingCellRsrq qoeAtual qosAtual b] := by
  unfold buildCells at h
  cases hn : neighbourCells env row with
  | error f =>
    rw [hn] at h
    exact absurd h (by simp)
  | ok cs =>
    rw [hn] at h
    simp only [Except.ok.injEq] at h
    exact ⟨cs, rfl, h.symm⟩

theorem buildCells_of_ok (env : Env) (row : MeasurementRow_t) (servingCellRsrq : Nat)
    (qoeAtual qosAtual : Double) (b : Int) (cs : List Cell)
    (h : neighbourCells env row = Except.ok cs) :
    buildCells env row servingCellRsrq qoeAtual qosAtual b =
      Except.ok (cs ++ [servingCell servingCellRsrq qoeAtual qosAtual b]) := by
  unfold buildCells
  rw [h]

theorem buildCells_error (env : Env) (row : MeasurementRow_t) (servingCellRsrq : Nat)
    (qoeAtual qosAtual : Double) (b : Int) (x : Failure)
    (h : buildCells env row servingCellRsrq qoeAtual qosAtual b = Except.error x) :
    x = Failure.stod ∧ ∃ c ∈ mapKeys row,
      env.qoeTorre c = CellFile.invalid ∨ env.qosTorre c = CellFile.invalid := by
  unfold buildCells at h
  cases hn : neighbourCells env row with
  | error f =>
    rw [hn] at h
    simp only [Except.error.injEq] at h
    rw [← h]
    exact neighbourCells_error env row f hn
  | ok cs =>
    rw [hn] at h
    exact absurd h (by simp)

/-- A candidate is a neighbour's line or the serving cell's. -/
theorem mem_buildCells (env : Env) (row : MeasurementRow_t) (servingCellRsrq : Nat)
    (qoeAtual qosAtual : Double) (b : Int) (cells : List Cell) (cell : Cell)
    (hb : buildCells env row servingCellRsrq qoeAtual qosAtual b = Except.ok cells)
    (h : cell ∈ cells) :
    (∃ e ∈ row, neighbourCell env e = Except.ok cell) ∨
      cell = servingCell servingCellRsrq qoeAtual qosAtual b := by
  obtain ⟨cs, hcs, hcells⟩ := buildCells_ok env row _ _ _ _ cells hb
  rw [hcells] at h
  rcases List.mem_append.1 h with hn | hs
  · exact Or.inl (neighbourCells_mem env row cs hcs cell hn)
  · exact Or.inr (List.mem_singleton.1 hs)

/-! ## Lemmas on `EvaluateHandover` -/

theorem scoreAndTrigger_ok (env : Env) (self : MultiHandoverAlgorithm) (row : MeasurementRow_t)
    (rnti servingCellRsrq : Nat) (cells : List Cell)
    (h : buildCells env row servingCellRsrq (orZero (env.rntiQoe rnti))
      (orZero (env.rntiQos rnti)) (env.rntiCell rnti) = Except.ok cells) :
    scoreAndTrigger env self row rnti servingCellRsrq =
      Except.ok (self, trigger rnti (env.rntiCell rnti) (selected cells (env.rntiCell rnti))) := by
  unfold scoreAndTrigger
  rw [h]

theorem scoreAndTrigger_error (env : Env) (self : MultiHandoverAlgorithm)
    (row : MeasurementRow_t) (rnti servingCellRsrq : Nat) (f : Failure)
    (h : buildCells env row servingCellRsrq (orZero (env.rntiQoe rnti))
      (orZero (env.rntiQos rnti)) (env.rntiCell rnti) = Except.error f) :
    scoreAndTrigger env self row rnti servingCellRsrq = Except.error f := by
  unfold scoreAndTrigger
  rw [h]

/-- Past the three guards the call is the candidate assembly, the scoring and
the trigger test. -/
theorem EvaluateHandover_of_guards (env : Env) (self : MultiHandoverAlgorithm)
    (rnti servingCellRsrq measId : Nat) (row : MeasurementRow_t)
    (htime : Double.lt env.now (Double.finite 5) = false)
    (hrow : mapFind rnti self.m_neighbourCellMeasures = some row)
    (hqoe : Double.gt (orZero (env.rntiQoe rnti)) (Double.finite 3) = false) :
    EvaluateHandover env self rnti servingCellRsrq measId =
      scoreAndTrigger env self row rnti servingCellRsrq := by
  unfold EvaluateHandover
  rw [htime, hrow]
  cases hq : env.rntiQoe rnti with
  | none => rfl
  | some q =>
    rw [hq] at hqoe
    simp only [orZero] at hqoe
    simp only [hqoe]
    rfl

/-- The call returns without a call of `TriggerHandover`, or it passed the
three guards and is the candidate assembly, the scoring and the trigger
test on the row of the terminal. -/
theorem EvaluateHandover_cases (env : Env) (self : MultiHandoverAlgorithm)
    (rnti servingCellRsrq measId : Nat) :
    EvaluateHandover env self rnti servingCellRsrq measId = Except.ok (self, []) ∨
      ∃ row, mapFind rnti self.m_neighbourCellMeasures = some row ∧
        Double.lt env.now (Double.finite 5) = false ∧
        Double.gt (orZero (env.rntiQoe rnti)) (Double.finite 3) = false ∧
        EvaluateHandover env self rnti servingCellRsrq measId =
          scoreAndTrigger env self row rnti servingCellRsrq := by
  cases ht : Double.lt env.now (Double.finite 5) with
  | true =>
    left
    unfold EvaluateHandover
    rw [if_pos ht]
  | false =>
    cases hrow : mapFind rnti self.m_neighbourCellMeasures with
    | none =>
      left
      unfold EvaluateHandover
      rw [ht, hrow]
      rfl
    | some row =>
      cases hq : Double.gt (orZero (env.rntiQoe rnti)) (Double.finite 3) with
      | false =>
        exact Or.inr ⟨row, rfl, rfl, rfl,
          EvaluateHandover_of_guards env self rnti servingCellRsrq measId row ht hrow hq⟩
      | true =>
        left
        unfold EvaluateHandover
        rw [ht, hrow]
        cases hs : env.rntiQoe rnti with
        | none =>
          rw [hs] at hq
          simp only [orZero, Double.gt, Double.lt] at hq
          exact absurd hq (by norm_num)
        | some q =>
          rw [hs] at hq
          simp only [orZero] at hq
          simp only [hq]
          rfl

/-- When the call returns, it returns the object as it received it. -/
theorem EvaluateHandover_fst (env : Env) (self : MultiHandoverAlgorithm)
    (rnti servingCellRsrq measId : Nat) (res : MultiHandoverAlgorithm × List (Nat × Nat))
    (h : EvaluateHandover env self rnti servingCellRsrq measId = Except.ok res) :
    res.1 = self := by
  rcases EvaluateHandover_cases env self rnti servingCellRsrq measId with
    hnil | ⟨row, _, _, _, hst⟩
  · rw [hnil] at h
    simp only [Except.ok.injEq] at h
    rw [← h]
  · rw [hst] at h
    unfold scoreAndTrigger at h
    cases hb : buildCells env row servingCellRsrq (orZero (env.rntiQoe rnti))
        (orZero (env.rntiQos rnti)) (env.rntiCell rnti) with
    | error f =>
      rw [hb] at h
      exact absurd h (by simp)
    | ok cells =>
      rw [hb] at h
      simp only [Except.ok.injEq] at h
      rw [← h]

/-- The call is ended only by the exception of `std::stod`, past the three
guards, on a file of a cell that is a key of the terminal's row. -/
theorem EvaluateHandover_error (env : Env) (self : MultiHandoverAlgorithm)
    (rnti servingCellRsrq measId : Nat) (f : Failure)
    (h : EvaluateHandover env self rnti servingCellRsrq measId = Except.error f) :
    f = Failure.stod ∧ ∃ c ∈ mapKeys (rowOf self.m_neighbourCellMeasures rnti),
      env.qoeTorre c = CellFile.invalid ∨ env.qosTorre c = CellFile.invalid := by
  rcases EvaluateHandover_cases env self rnti servingCellRsrq measId with
    hnil | ⟨row, hrow, _, _, hst⟩
  · rw [hnil] at h
    exact absurd h (by simp)
  · rw [hst] at h
    have hrowOf : rowOf self.m_neighbourCellMeasures rnti = row := by
      unfold rowOf
      rw [hrow]
      rfl
    rw [hrowOf]
    unfold scoreAndTrigger at h
    cases hb : buildCells env row servingCellRsrq (orZero (env.rntiQoe rnti))
        (orZero (env.rntiQos rnti)) (env.rntiCell rnti) with
    | error x =>
      rw [hb] at h
      simp only [Except.error.injEq] at h
      rw [← h]
      exact buildCells_error env row _ _ _ _ x hb
    | ok cells =>
      rw [hb] at h
      exact absurd h (by simp)

/-- The call returns when no file of a key of the terminal's row makes
`std::stod` throw. -/
theorem EvaluateHandover_ok_of_valid (env : Env) (self : MultiHandoverAlgorithm)
    (rnti servingCellRsrq measId : Nat)
    (hfiles : ∀ c ∈ mapKeys (rowOf self.m_neighbourCellMeasures rnti),
      env.qoeTorre c ≠ CellFile.invalid ∧ env.qosTorre c ≠ CellFile.invalid) :
    ∃ calls, EvaluateHandover env self rnti servingCellRsrq measId = Except.ok (self, calls) := by
  cases h : EvaluateHandover env self rnti servingCellRsrq measId with
  | error f =>
    obtain ⟨_, c, hc, hinv⟩ := EvaluateHandover_error env self rnti servingCellRsrq measId f h
    rcases hinv with hinv | hinv
    · exact absurd hinv (hfiles c hc).1
    · exact absurd hinv (hfiles c hc).2
  | ok res =>
    have hfst := EvaluateHandover_fst env self rnti servingCellRsrq measId res h
    exact ⟨res.2, by rw [← hfst]⟩

theorem trigger_eq_iff (rnti : Nat) (b : Int) (res : Double × Nat) :
    trigger rnti b res = [(rnti, res.2)] ↔
      res.2 ≠ 0 ∧ (res.2 : Int) ≠ b ∧ Double.gt res.1 (Double.finite 5) = true := by
  unfold trigger
  by_cases h : res.2 ≠ 0 ∧ (res.2 : Int) ≠ b ∧ Double.gt res.1 (Double.finite 5) = true
  · simp only [if_pos h, true_iff]
    exact h
  · simp only [if_neg h, List.nil_eq, reduceCtorEq, false_iff]
    exact h

theorem trigger_cases (rnti : Nat) (b : Int) (res : Double × Nat) :
    trigger rnti b res = [(rnti, res.2)] ∨ trigger rnti b res = [] := by
  unfold trigger
  by_cases h : res.2 ≠ 0 ∧ (res.2 : Int) ≠ b ∧ Double.gt res.1 (Double.finite 5) = true
  · exact Or.inl (if_pos h)
  · exact Or.inr (if_neg h)

theorem mem_trigger (rnti : Nat) (b : Int) (res : Double × Nat) (t c : Nat)
    (h : (t, c) ∈ trigger rnti b res) :
    t = rnti ∧ c = res.2 ∧ res.2 ≠ 0 ∧ (res.2 : Int) ≠ b ∧
      Double.gt res.1 (Double.finite 5) = true := by
  unfold trigger at h
  by_cases hc : res.2 ≠ 0 ∧ (res.2 : Int) ≠ b ∧ Double.gt res.1 (Double.finite 5) = true
  · rw [if_pos hc] at h
    have heq := List.mem_singleton.1 h
    have h₁ : t = rnti := congrArg Prod.fst heq
    have h₂ : c = res.2 := congrArg Prod.snd heq
    exact ⟨h₁, h₂, hc.1, hc.2.1, hc.2.2⟩
  · rw [if_neg hc] at h
    exact absurd h (List.not_mem_nil _)

theorem zero_lt_five : Double.lt (Double.finite 0) (Double.finite 5) = true := by
  simp [Double.lt]

/-- A final `soma_res` above 5 is the score of a candidate on which the loop
ended; that score is a number and no candidate's score exceeds it. -/
theorem selected_of_floor (cells : List Cell) (b : Int)
    (h5 : Double.gt (selected cells b).1 (Double.finite 5) = true) :
    ∃ cell ∈ cells, selected cells b = (soma cell, toUint16 cell.id) ∧
      soma cell ≠ Double.nan ∧ ∀ d ∈ cells, Double.gt (soma d) (soma cell) = false := by
  unfold selected at h5 ⊢
  have hmax := (selectLoop_fst cells (Double.finite 0, toUint16 b) (by simp)).2.2
  rcases selectLoop_cases cells (Double.finite 0, toUint16 b) with hinit | ⟨c, hc, hnan, hsel⟩
  · rw [hinit] at h5
    have h05 := Double.lt_asymm zero_lt_five
    have h5' : Double.lt (Double.finite 5) (Double.finite 0) = true := h5
    rw [h05] at h5'
    exact absurd h5' (by decide)
  · rw [hsel] at hmax
    exact ⟨c, hc, hsel, hnan, hmax⟩

/-! ## The decision: C1 to C5 -/

/-- C1 (trigger condition and action).  When the time is not below 5 s, the
terminal has a row in the measurement table and its own QoE is not above 3:
if `std::stod` throws during candidate assembly the call ends without any
call of `TriggerHandover`; otherwise `EvaluateHandover` returns, and it calls
`TriggerHandover (rnti, c)` for the cell `c` selected by the scoring loop if
and only if `c` is not 0, `c` differs from the serving cell and the selected
score is above 5; it makes that single call or no call at all; and a selected
score above 5 is the composite score of a candidate whose cell id is the
selected cell. -/
theorem EvaluateHandover_trigger_iff (env : Env) (self : MultiHandoverAlgorithm)
    (rnti servingCellRsrq measId : Nat) (row : MeasurementRow_t)
    (htime : Double.lt env.now (Double.finite 5) = false)
    (hrow : mapFind rnti self.m_neighbourCellMeasures = some row)
    (hqoe : Double.gt (orZero (env.rntiQoe rnti)) (Double.finite 3) = false) :
    (∀ f, buildCells env row servingCellRsrq (orZero (env.rntiQoe rnti))
        (orZero (env.rntiQos rnti)) (env.rntiCell rnti) = Except.error f →
      EvaluateHandover env self rnti servingCellRsrq measId = Except.error f) ∧
    (∀ cells, buildCells env row servingCellRsrq (orZero (env.rntiQoe rnti))
        (orZero (env.rntiQos rnti)) (env.rntiCell rnti) = Except.ok cells →
      (∃ calls, EvaluateHandover env self rnti servingCellRsrq measId = Except.ok (self, calls) ∧
        (calls = [(rnti, (selected cells (env.rntiCell rnti)).2)] ↔
          (selected cells (env.rntiCell rnti)).2 ≠ 0 ∧
            ((selected cells (env.rntiCell rnti)).2 : Int) ≠ env.rntiCell rnti ∧
            Double.gt (selected cells (env.rntiCell rnti)).1 (Double.finite 5) = true) ∧
        (calls = [(rnti, (selected cells (env.rntiCell rnti)).2)] ∨ calls = [])) ∧
      (Double.gt (selected cells (env.rntiCell rnti)).1 (Double.finite 5) = true →
        ∃ cell ∈ cells, soma cell = (selected cells (env.rntiCell rnti)).1 ∧
          toUint16 cell.id = (selected cells (env.rntiCell rnti)).2)) := by
  rw [EvaluateHandover_of_guards env self rnti servingCellRsrq measId row htime hrow hqoe]
  refine ⟨fun f hf => scoreAndTrigger_error env self row rnti servingCellRsrq f hf,
    fun cells hcells => ⟨⟨_, scoreAndTrigger_ok env self row rnti servingCellRsrq cells hcells,
      trigger_eq_iff _ _ _, trigger_cases _ _ _⟩, fun h5 => ?_⟩⟩
  obtain ⟨cell, hcell, hsel, _, _⟩ := selected_of_floor cells (env.rntiCell rnti) h5
  exact ⟨cell, hcell, by rw [hsel], by rw [hsel]⟩

/-- C2, amended (selection and tie-break).  For every candidate array and
serving cell id: when some candidate has a composite score above 0, the
scoring loop ends on the first candidate, in construction order, whose score
is the greatest among all candidates, and `soma_res` is that score; when no
candidate scores above 0, the loop keeps its initial state, `soma_res = 0`
and the serving cell id. -/
theorem selected_first_greatest (cells : List Cell) (b : Int) :
    ((∃ d ∈ cells, Double.gt (soma d) (Double.finite 0) = true) →
      ∃ c, firstGreatest cells = some c ∧ selected cells b = (soma c, toUint16 c.id)) ∧
    ((∀ d ∈ cells, Double.gt (soma d) (Double.finite 0) = false) →
      selected cells b = (Double.finite 0, toUint16 b)) := by
  constructor
  · rintro ⟨d, hd, hpos⟩
    have hdnan : soma d ≠ Double.nan := (Double.lt_ne_nan hpos).2
    obtain ⟨m, hm, hmnan, hmax⟩ := exists_greatest cells ⟨d, hd, hdnan⟩
    cases hfind : firstGreatest cells with
    | none =>
      unfold firstGreatest at hfind
      rw [List.find?_eq_none] at hfind
      have hm' := hfind m hm
      simp only [Bool.and_eq_true, decide_eq_true_eq, List.all_eq_true, Bool.not_eq_true',
        not_and, not_forall] at hm'
      obtain ⟨x, hx, hxm⟩ := hm' hmnan
      exact absurd (hmax x hx) hxm
    | some c =>
      refine ⟨c, rfl, ?_⟩
      unfold firstGreatest at hfind
      obtain ⟨hpc, l₁, l₂, hsplit, hbefore⟩ := List.find?_eq_some.1 hfind
      simp only [Bool.and_eq_true, decide_eq_true_eq, List.all_eq_true,
        Bool.not_eq_true'] at hpc
      obtain ⟨hcnan, hcmax⟩ := hpc
      have hcpos : Double.gt (soma c) (Double.finite 0) = true :=
        Double.lt_of_lt_of_not_lt hpos (hcmax d hd) hcnan
      unfold selected
      rw [hsplit]
      apply selectLoop_first_max
      · exact hcpos
      · intro a ha
        have hna := hbefore a ha
        simp only [Bool.not_eq_true', Bool.and_eq_false_imp, decide_eq_true_eq,
          List.all_eq_false, Bool.not_eq_true, Bool.not_eq_false] at hna
        by_cases hanan : soma a = Double.nan
        · exact Or.inr hanan
        · left
          have hamem : a ∈ cells := by
            rw [hsplit]
            exact List.mem_append_left _ ha
          obtain ⟨x, hx, hxa⟩ := hna hanan
          have hxa' : Double.gt (soma x) (soma a) = true := by simpa using hxa
          exact Double.lt_of_lt_of_not_lt hxa' (hcmax x hx) hcnan
      · intro e he
        apply hcmax
        rw [hsplit]
        exact List.mem_append_of_mem_right _ (List.mem_cons_of_mem _ he)
  · intro hall
    exact selectLoop_stay cells _ hall

/-- C3 (a strictly best neighbour above the floor is the target).  When the
time is not below 5 s, the terminal has a row and its own QoE is not above 3:
if an entry `(c, m)` of the row, with `c` not 0, below 2^16 and different from
the serving cell, has a candidate line `cell` whose score
`rsrq * 0.2 + qoe * 0.4 + qos * 0.1`, as the code computes it in `double`, is
above 5, above the score of every other entry of the row and above the score
of the serving cell, then `EvaluateHandover` returns having made exactly the
call `TriggerHandover (rnti, c)`. -/
theorem EvaluateHandover_best_neighbour (env : Env) (self : MultiHandoverAlgorithm)
    (rnti servingCellRsrq measId : Nat) (row : MeasurementRow_t) (c : Nat) (m : UeMeasure)
    (cell : Cell)
    (htime : Double.lt env.now (Double.finite 5) = false)
    (hrow : mapFind rnti self.m_neighbourCellMeasures = some row)
    (hqoe : Double.gt (orZero (env.rntiQoe rnti)) (Double.finite 3) = false)
    (hmem : (c, m) ∈ row) (hc0 : c ≠ 0) (hc16 : c < 65536)
    (hcb : (c : Int) ≠ env.rntiCell rnti)
    (hcell : neighbourCell env (c, m) = Except.ok cell)
    (hfloor : Double.gt (soma cell) (Double.finite 5) = true)
    (hothers : ∀ e ∈ row, e ≠ (c, m) →
      ∃ d, neighbourCell env e = Except.ok d ∧ Double.gt (soma cell) (soma d) = true)
    (hserving : Double.gt (soma cell)
      (soma (servingCell servingCellRsrq (orZero (env.rntiQoe rnti))
        (orZero (env.rntiQos rnti)) (env.rntiCell rnti))) = true) :
    soma cell =
      Double.add
        (Double.add (Double.mul (Double.ofNat m.m_rsrq) (Double.ofScientific 2 1))
          (Double.mul cell.qoe (Double.ofScientific 4 1)))
        (Double.mul cell.qos (Double.ofScientific 1 1)) ∧
    readCellFile (env.qoeTorre c) = Except.ok cell.qoe ∧
    readCellFile (env.qosTorre c) = Except.ok cell.qos ∧
    EvaluateHandover env self rnti servingCellRsrq measId = Except.ok (self, [(rnti, c)]) := by
  obtain ⟨hrsrq, hfqoe, hfqos, hid⟩ := neighbourCell_ok env (c, m) cell hcell
  refine ⟨?_, hfqoe, hfqos, ?_⟩
  · unfold soma
    rw [hrsrq, Double.mul_swap (Double.ofScientific 1 1) cell.qos]
  have hall : ∀ e ∈ row, ∃ d, neighbourCell env e = Except.ok d := by
    intro e he
    by_cases heq : e = (c, m)
    · exact ⟨cell, by rw [heq]; exact hcell⟩
    · obtain ⟨d, hd, _⟩ := hothers e he heq
      exact ⟨d, hd⟩
  obtain ⟨cs, hcs⟩ := neighbourCells_ok_of_forall env row hall
  obtain ⟨pre, post, hsplit, hnotin⟩ := List.eq_append_cons_of_mem hmem
  rw [hsplit] at hcs
  obtain ⟨cpre, c', cpost, hpre, hc', hpost, hcssplit⟩ :=
    neighbourCells_split env pre post (c, m) cs hcs
  have hcc : c' = cell := by
    rw [hcell] at hc'
    simp only [Except.ok.injEq] at hc'
    exact hc'.symm
  rw [hcc] at hcssplit
  rw [← hsplit] at hcs
  have hbuild := buildCells_of_ok env row servingCellRsrq (orZero (env.rntiQoe rnti))
    (orZero (env.rntiQos rnti)) (env.rntiCell rnti) cs hcs
  have hsel : selected (cs ++ [servingCell servingCellRsrq (orZero (env.rntiQoe rnti))
      (orZero (env.rntiQos rnti)) (env.rntiCell rnti)]) (env.rntiCell rnti) = (soma cell, c) := by
    have hidc : toUint16 cell.id = c := by
      rw [hid]
      exact toUint16_natCast c hc16
    unfold selected
    rw [hcssplit, List.append_assoc, List.cons_append,
      selectLoop_first_max cpre _ cell, hidc]
    · exact Double.lt_trans zero_lt_five hfloor
    · intro d hd
      obtain ⟨e, he, hed⟩ := neighbourCells_mem env pre cpre hpre d hd
      have hne : e ≠ (c, m) := fun heq => hnotin (heq ▸ he)
      obtain ⟨d', hd', hgt⟩ := hothers e (by rw [hsplit]; exact List.mem_append_left _ he) hne
      rw [hed] at hd'
      simp only [Except.ok.injEq] at hd'
      rw [hd']
      exact Or.inl hgt
    · intro d hd
      rcases List.mem_append.1 hd with hd | hd
      · obtain ⟨e, he, hed⟩ := neighbourCells_mem env post cpost hpost d hd
        by_cases heq : e = (c, m)
        · rw [heq, hcell] at hed
          simp only [Except.ok.injEq] at hed
          rw [← hed]
          exact Double.lt_irrefl _
        · obtain ⟨d', hd', hgt⟩ := hothers e
            (by rw [hsplit]; exact List.mem_append_of_mem_right _ (List.mem_cons_of_mem _ he)) heq
          rw [hed] at hd'
          simp only [Except.ok.injEq] at hd'
          rw [hd']
          exact Double.lt_asymm hgt
      · rw [List.mem_singleton.1 hd]
        exact Double.lt_asymm hserving
  rw [EvaluateHandover_of_guards env self rnti servingCellRsrq measId row htime hrow hqoe,
    scoreAndTrigger_ok env self row rnti servingCellRsrq _ hbuild, hsel]
  have htrig : trigger rnti (env.rntiCell rnti) (soma cell, c) = [(rnti, c)] :=
    (trigger_eq_iff rnti (env.rntiCell rnti) (soma cell, c)).2 ⟨hc0, hcb, hfloor⟩
  rw [htrig]

/-- C4 (satisfaction guard).  When the terminal's own QoE sample is available
and above 3, `EvaluateHandover` returns without any call of
`TriggerHandover`, whatever the time, the store, the serving cell, its RSRQ
and the quality files of the cells. -/
theorem EvaluateHandover_satisfied (env : Env) (self : MultiHandoverAlgorithm)
    (rnti servingCellRsrq measId : Nat) (q : Double)
    (hsample : env.rntiQoe rnti = some q) (hq : Double.gt q (Double.finite 3) = true) :
    EvaluateHandover env self rnti servingCellRsrq measId = Except.ok (self, []) := by
  unfold EvaluateHandover
  split
  · rfl
  · split
    · rfl
    · rw [hsample]
      simp only [hq]
      rfl

/-- C5 (warm-up guard).  When the time is below 5 s, `EvaluateHandover` returns
without any call of `TriggerHandover`, whatever the store, the provider and
the report. -/
theorem EvaluateHandover_warm_up (env : Env) (self : MultiHandoverAlgorithm)
    (rnti servingCellRsrq measId : Nat) (htime : Double.lt env.now (Double.finite 5) = true) :
    EvaluateHandover env self rnti servingCellRsrq measId = Except.ok (self, []) := by
  unfold EvaluateHandover
  rw [if_pos htime]

/-! ## Scenario evaluations -/

theorem envA_guards :
    Double.lt envA.now (Double.finite 5) = false ∧
      mapFind 7 (withTable scenarioTable).m_neighbourCellMeasures = some scenarioRow ∧
      Double.gt (orZero (envA.rntiQoe 7)) (Double.finite 3) = false := by
  decide!

theorem cellsA_build (servingCellRsrq : Nat) (h : servingCellRsrq = 10 ∨ servingCellRsrq = 34) :
    buildCells envA scenarioRow servingCellRsrq (orZero (envA.rntiQoe 7))
      (orZero (envA.rntiQos 7)) (envA.rntiCell 7) = Except.ok (cellsA servingCellRsrq) := by
  rcases h with h | h <;> rw [h] <;> decide!

theorem cellsA_selected :
    selected (cellsA 10) (envA.rntiCell 7) = (Double.ofScientific 789 2, 2) := by
  decide!

theorem scenarioA_call :
    EvaluateHandover envA (withTable scenarioTable) 7 10 0 =
      Except.ok (withTable scenarioTable, [(7, 2)]) := by
  decide!

/-- The rounding of the model on the scores that sit next to a tie or next to
the floor: RSRQ 24 with QoE 0.5 scores one unit in the last place above 5,
RSRQ 24 with QoE 3 one unit above 6, RSRQ 34 alone one unit above 6.8, and
RSRQ 25 with QoS 2^-60 exactly 5. -/
theorem soma_rounding :
    soma (mkCell 24 (Double.ofScientific 5 1) (Double.finite 0) 2) =
      Double.finite (5 + 1 / 2 ^ 50) ∧
    soma (mkCell 24 (Double.finite 3) (Double.finite 0) 3) = Double.finite (6 + 1 / 2 ^ 50) ∧
    soma (mkCell 34 (Double.finite 0) (Double.finite 0) 2) =
      Double.finite (7656119366529844 / 2 ^ 50) ∧
    Double.ofScientific 68 1 = Double.finite (7656119366529843 / 2 ^ 50) ∧
    soma (mkCell 25 (Double.finite 0) (Double.finite (1 / 2 ^ 60)) 2) = Double.finite 5 := by
  decide!

/-- The model on inputs where exact arithmetic and `double` arithmetic part:
RSRQ 24 with cell QoE 0.5 is handed over to cell 2; of neighbours 2 (RSRQ 30)
and 3 (RSRQ 24, QoE 3) cell 3 is the target; RSRQ 25 with cell QoS 2^-60 gives
no call; and with the serving cell id -1 and serving RSRQ 34 the call is
`TriggerHandover (7, 65535)`. -/
theorem double_decisions :
    EvaluateHandover
        (withCellSample quietEnv 2 (CellFile.value (Double.ofScientific 5 1)) CellFile.missing)
        (withTable [(7, oneNeighbour 2 24)]) 7 0 0 =
      Except.ok (withTable [(7, oneNeighbour 2 24)], [(7, 2)]) ∧
    EvaluateHandover tieEnv (withTable [(7, twoNeighbours 30 24)]) 7 0 0 =
      Except.ok (withTable [(7, twoNeighbours 30 24)], [(7, 3)]) ∧
    EvaluateHandover
        (withCellSample quietEnv 2 CellFile.missing
          (CellFile.value (Double.finite (1 / 2 ^ 60))))
        (withTable [(7, oneNeighbour 2 25)]) 7 0 0 =
      Except.ok (withTable [(7, oneNeighbour 2 25)], []) ∧
    EvaluateHandover (withServingCell quietEnv (-1)) (withTable scenarioTable) 7 34 0 =
      Except.ok (withTable scenarioTable, [(7, 65535)]) := by
  decide!

/-! ## Witnesses and counterexamples for C1 to C5 -/

/-- Scenario A under C1: the guards hold, the candidate array is built, the
loop selects cell 2 with score 7.89, and the call made is
`TriggerHandover (7, 2)`. -/
theorem EvaluateHandover_trigger_iff_witness :
    (Double.lt envA.now (Double.finite 5) = false ∧
      mapFind 7 (withTable scenarioTable).m_neighbourCellMeasures = some scenarioRow ∧
      Double.gt (orZero (envA.rntiQoe 7)) (Double.finite 3) = false) ∧
    buildCells envA scenarioRow 10 (orZero (envA.rntiQoe 7)) (orZero (envA.rntiQos 7))
      (envA.rntiCell 7) = Except.ok (cellsA 10) ∧
    selected (cellsA 10) (envA.rntiCell 7) = (Double.ofScientific 789 2, 2) ∧
    EvaluateHandover envA (withTable scenarioTable) 7 10 0 =
      Except.ok (withTable scenarioTable, [(7, 2)]) := by
  refine ⟨envA_guards, cellsA_build 10 (Or.inl rfl), cellsA_selected, ?_⟩
  obtain ⟨calls, he, hiff, _⟩ :=
    ((EvaluateHandover_trigger_iff envA (withTable scenarioTable) 7 10 0 scenarioRow
      envA_guards.1 envA_guards.2.1 envA_guards.2.2).2 (cellsA 10)
      (cellsA_build 10 (Or.inl rfl))).1
  have hcalls : calls = [(7, (selected (cellsA 10) (envA.rntiCell 7)).2)] :=
    hiff.2 (by rw [cellsA_selected]; decide!)
  rw [he, hcalls, cellsA_selected]

/-- C2 as stated fails.  At 6 s, terminal 7 served by cell 1 with serving
RSRQ 0, one neighbour, cell 2 with RSRQ 0, and no quality sample anywhere: the
guards hold, the candidate array is built, both candidates score 0, so the
first candidate with the greatest score is neighbour 2, while the loop ends on
cell 1, its initial value. -/
theorem selected_not_first_greatest :
    (Double.lt quietEnv.now (Double.finite 5) = false ∧
      mapFind 7 (withTable [(7, oneNeighbour 2 0)]).m_neighbourCellMeasures =
        some (oneNeighbour 2 0) ∧
      Double.gt (orZero (quietEnv.rntiQoe 7)) (Double.finite 3) = false) ∧
    buildCells quietEnv (oneNeighbour 2 0) 0 (orZero (quietEnv.rntiQoe 7))
      (orZero (quietEnv.rntiQos 7)) (quietEnv.rntiCell 7) = Except.ok cellsZero ∧
    cellsZero.map soma = [Double.finite 0, Double.finite 0] ∧
    (firstGreatest cellsZero).map (fun c => toUint16 c.id) = some 2 ∧
    (selected cellsZero (quietEnv.rntiCell 7)).2 = 1 := by
  decide!

/-- Under the amended C2: neighbour 2 at RSRQ 30 scores 6, neighbour 3 at
RSRQ 24 with QoE 3 scores one unit in the last place above 6 and the serving
cell scores 0; the loop ends on the first candidate of greatest score, which
is cell 3. -/
theorem selected_first_greatest_witness :
    (∃ d ∈ cellsTie, Double.gt (soma d) (Double.finite 0) = true) ∧
    cellsTie.map soma = [Double.finite 6, Double.finite (6 + 1 / 2 ^ 50), Double.finite 0] ∧
    ∃ c, firstGreatest cellsTie = some c ∧
      selected cellsTie (tieEnv.rntiCell 7) = (soma c, toUint16 c.id) ∧ toUint16 c.id = 3 := by
  have hex : ∃ d ∈ cellsTie, Double.gt (soma d) (Double.finite 0) = true := by decide!
  obtain ⟨c, hc, hsel⟩ := (selected_first_greatest cellsTie (tieEnv.rntiCell 7)).1 hex
  have hid : (firstGreatest cellsTie).map (fun c => toUint16 c.id) = some 3 := by decide!
  rw [hc] at hid
  simp only [Option.map_some', Option.some.injEq] at hid
  exact ⟨hex, by decide!, c, hc, hsel, hid⟩

/-- Scenario A under C3: serving cell 1 with RSRQ 10 and terminal QoE 0 scores
2.0, neighbour 2 with RSRQ 30, QoE 4.5 and QoS 0.9 scores 7.89, and the call
made is `TriggerHandover (7, 2)`. -/
theorem EvaluateHandover_best_neighbour_witness :
    soma (servingCell 10 (orZero (envA.rntiQoe 7)) (orZero (envA.rntiQos 7))
      (envA.rntiCell 7)) = Double.finite 2 ∧
    soma (mkCell 30 (Double.ofScientific 45 1) (Double.ofScientific 9 1) 2) =
      Double.ofScientific 789 2 ∧
    EvaluateHandover envA (withTable scenarioTable) 7 10 0 =
      Except.ok (withTable scenarioTable, [(7, 2)]) :=
  ⟨by decide!, by decide!,
    (EvaluateHandover_best_neighbour envA (withTable scenarioTable) 7 10 0 scenarioRow 2
      { m_cellId := 2, m_rsrp := 0, m_rsrq := 30 }
      (mkCell 30 (Double.ofScientific 45 1) (Double.ofScientific 9 1) 2)
      envA_guards.1 envA_guards.2.1 envA_guards.2.2
      (by decide) (by decide) (by decide) (by decide!) (by decide!) (by decide!)
      (by
        intro e he hne
        exact absurd (List.mem_singleton.1 he) hne)
      (by decide!)).2.2.2⟩

/-- Scenario B under C4: Scenario A's data with terminal QoE 4 gives no
call. -/
theorem EvaluateHandover_satisfied_witness :
    ((scenarioEnv (Double.finite 6) (some (Double.finite 4))).rntiQoe 7 =
        some (Double.finite 4) ∧
      Double.gt (Double.finite 4) (Double.finite 3) = true) ∧
    EvaluateHandover (scenarioEnv (Double.finite 6) (some (Double.finite 4)))
      (withTable scenarioTable) 7 10 0 = Except.ok (withTable scenarioTable, []) :=
  ⟨⟨rfl, by decide!⟩,
    EvaluateHandover_satisfied (scenarioEnv (Double.finite 6) (some (Double.finite 4)))
      (withTable scenarioTable) 7 10 0 (Double.finite 4) rfl (by decide!)⟩

/-- Scenario A's data at 4 s under C5: the neighbour would qualify, and no
call is made. -/
theorem EvaluateHandover_warm_up_witness :
    Double.lt (scenarioEnv (Double.finite 4) (some (Double.finite 0))).now (Double.finite 5)
      = true ∧
    EvaluateHandover (scenarioEnv (Double.finite 4) (some (Double.finite 0)))
      (withTable scenarioTable) 7 10 0 = Except.ok (withTable scenarioTable, []) :=
  ⟨by decide!,
    EvaluateHandover_warm_up (scenarioEnv (Double.finite 4) (some (Double.finite 0)))
      (withTable scenarioTable) 7 10 0 (by decide!)⟩

/-! ## Lemmas on `DoReportUeMeas` -/

/-- The calls made by `DoReportUeMeas` are those of its `EvaluateHandover`
call, which runs on the object as received. -/
theorem DoReportUeMeas_fst (env : Env) (self : MultiHandoverAlgorithm) (rnti : Nat)
    (measResults : MeasResults) :
    (DoReportUeMeas env self rnti measResults).1 =
      callsOf (EvaluateHandover env self rnti measResults.rsrqResult measResults.measId) := by
  unfold DoReportUeMeas
  cases h : EvaluateHandover env self rnti measResults.rsrqResult measResults.measId with
  | error f => rfl
  | ok r =>
    simp only [callsOf]
    split <;> rfl

theorem DoReportUeMeas_snd_of_error (env : Env) (self : MultiHandoverAlgorithm) (rnti : Nat)
    (measResults : MeasResults) (f : Failure)
    (h : EvaluateHandover env self rnti measResults.rsrqResult measResults.measId =
      Except.error f) :
    (DoReportUeMeas env self rnti measResults).2 = Except.error f := by
  unfold DoReportUeMeas
  rw [h]

theorem DoReportUeMeas_snd_of_ok (env : Env) (self : MultiHandoverAlgorithm) (rnti : Nat)
    (measResults : MeasResults) (res : MultiHandoverAlgorithm × List (Nat × Nat))
    (h : EvaluateHandover env self rnti measResults.rsrqResult measResults.measId =
      Except.ok res) :
    (DoReportUeMeas env self rnti measResults).2 =
      if measResults.haveMeasResultNeighCells = true ∧ ¬ measResults.measResultListEutra = [] then
        reportLoop env rnti measResults.measResultListEutra self
      else Except.ok self := by
  have hfst := EvaluateHandover_fst env self rnti _ _ res h
  unfold DoReportUeMeas
  rw [h]
  simp only [hfst]
  split <;> rfl

/-- Without a failing assertion the loop over the neighbour list upserts
every entry, in list order. -/
theorem reportLoop_ok (env : Env) (rnti : Nat) (l : List MeasResultEutra)
    (self : MultiHandoverAlgorithm)
    (h : env.assertEnabled = true → ∀ it ∈ l, it.haveRsrqResult = true) :
    reportLoop env rnti l self = Except.ok (upsertAll self rnti l) := by
  induction l generalizing self with
  | nil => rfl
  | cons it rest ih =>
    have hit : ¬ (env.assertEnabled = true ∧ it.haveRsrqResult = false) := by
      rintro ⟨ha, hf⟩
      rw [h ha it (List.mem_cons_self it rest)] at hf
      exact absurd hf (by decide)
    unfold reportLoop
    rw [if_neg hit]
    exact ih _ (fun ha x hx => h ha x (List.mem_cons_of_mem it hx))

theorem upsertAll_find_ne (self : MultiHandoverAlgorithm) (rnti t' : Nat)
    (l : List MeasResultEutra) (h : t' ≠ rnti) :
    mapFind t' (upsertAll self rnti l).m_neighbourCellMeasures =
      mapFind t' self.m_neighbourCellMeasures := by
  induction l generalizing self with
  | nil => rfl
  | cons it rest ih =>
    have hstep : upsertAll self rnti (it :: rest) =
        upsertAll (UpdateNeighbourMeasurements self rnti it.physCellId it.rsrqResult) rnti rest :=
      rfl
    rw [hstep, ih, UpdateNeighbourMeasurements_find_ne self rnti t' _ _ h]

/-- The loop over the neighbour list either upserts every entry or, with
assertions compiled in, aborts on an entry that has no RSRQ. -/
theorem reportLoop_cases (env : Env) (rnti : Nat) (l : List MeasResultEutra)
    (self : MultiHandoverAlgorithm) :
    reportLoop env rnti l self = Except.ok (upsertAll self rnti l) ∨
      (env.assertEnabled = true ∧ (∃ it ∈ l, it.haveRsrqResult = false) ∧
        reportLoop env rnti l self = Except.error Failure.assertion) := by
  induction l generalizing self with
  | nil => exact Or.inl rfl
  | cons it rest ih =>
    by_cases hit : env.assertEnabled = true ∧ it.haveRsrqResult = false
    · refine Or.inr ⟨hit.1, ⟨it, List.mem_cons_self it rest, hit.2⟩, ?_⟩
      unfold reportLoop
      rw [if_pos hit]
    · unfold reportLoop
      rw [if_neg hit]
      rcases ih (UpdateNeighbourMeasurements self rnti it.physCellId it.rsrqResult) with
        h | ⟨ha, ⟨x, hx, hxf⟩, hmsg⟩
      · exact Or.inl h
      · exact Or.inr ⟨ha, ⟨x, List.mem_cons_of_mem it hx, hxf⟩, hmsg⟩

/-- With assertions compiled in, the loop aborts as soon as the list holds an
entry that has no RSRQ. -/
theorem reportLoop_error (env : Env) (rnti : Nat) (l : List MeasResultEutra)
    (self : MultiHandoverAlgorithm) (ha : env.assertEnabled = true)
    (h : ∃ it ∈ l, it.haveRsrqResult = false) :
    reportLoop env rnti l self = Except.error Failure.assertion := by
  induction l generalizing self with
  | nil =>
    obtain ⟨it, hit, _⟩ := h
    exact absurd hit (List.not_mem_nil it)
  | cons x rest ih =>
    by_cases hx : x.haveRsrqResult = false
    · unfold reportLoop
      rw [if_pos ⟨ha, hx⟩]
    · unfold reportLoop
      rw [if_neg (fun hc => hx hc.2)]
      apply ih
      obtain ⟨it, hit, hf⟩ := h
      rcases List.mem_cons.1 hit with heq | hmem
      · rw [heq] at hf
        exact absurd hf hx
      · exact ⟨it, hmem, hf⟩

/-- C7 as stated fails.  At 6 s, with an empty store, the report of terminal 7
carrying neighbour 2 (RSRQ 30, score 7.89) makes no call and stores the
neighbour, while `EvaluateHandover` on the store as it is after the report's
updates calls `TriggerHandover (7, 2)`. -/
theorem DoReportUeMeas_not_update_first :
    DoReportUeMeas envA (withTable []) 7 scenarioReport =
      ([], Except.ok (withTable scenarioTable)) ∧
    upsertAll (withTable []) 7 scenarioReport.measResultListEutra = withTable scenarioTable ∧
    EvaluateHandover envA (upsertAll (withTable []) 7 scenarioReport.measResultListEutra) 7
      scenarioReport.rsrqResult scenarioReport.measId =
        Except.ok (withTable scenarioTable, [(7, 2)]) := by
  decide!

/-- C7, amended (evaluate, then update).  For every report, the calls made by
`DoReportUeMeas` are those of `EvaluateHandover` applied to the store as it is
before the report's neighbour updates; when that evaluation is ended by an
exception so is the call, and otherwise the neighbour list is processed
afterwards, starting from that same store. -/
theorem DoReportUeMeas_evaluates_first (env : Env) (self : MultiHandoverAlgorithm) (rnti : Nat)
    (measResults : MeasResults) :
    (DoReportUeMeas env self rnti measResults).1 =
      callsOf (EvaluateHandover env self rnti measResults.rsrqResult measResults.measId) ∧
    (∀ f, EvaluateHandover env self rnti measResults.rsrqResult measResults.measId =
        Except.error f →
      (DoReportUeMeas env self rnti measResults).2 = Except.error f) ∧
    (∀ res, EvaluateHandover env self rnti measResults.rsrqResult measResults.measId =
        Except.ok res →
      (DoReportUeMeas env self rnti measResults).2 =
        if measResults.haveMeasResultNeighCells = true ∧
            ¬ measResults.measResultListEutra = [] then
          reportLoop env rnti measResults.measResultListEutra self
        else Except.ok self) :=
  ⟨DoReportUeMeas_fst env self rnti measResults,
    fun f hf => DoReportUeMeas_snd_of_error env self rnti measResults f hf,
    fun res hres => DoReportUeMeas_snd_of_ok env self rnti measResults res hres⟩

/-- Under the amended C7: at 6 s with an empty store, the evaluation for
Scenario A's report runs on the empty store and makes no call, and the
report's neighbour is stored afterwards. -/
theorem DoReportUeMeas_evaluates_first_witness :
    EvaluateHandover envA (withTable []) 7 scenarioReport.rsrqResult scenarioReport.measId =
      Except.ok (withTable [], []) ∧
    (DoReportUeMeas envA (withTable []) 7 scenarioReport).1 = [] ∧
    (DoReportUeMeas envA (withTable []) 7 scenarioReport).2 =
      Except.ok (withTable scenarioTable) := by
  have hev : EvaluateHandover envA (withTable []) 7 scenarioReport.rsrqResult
      scenarioReport.measId = Except.ok (withTable [], []) := by decide!
  obtain ⟨h₁, _, h₃⟩ := DoReportUeMeas_evaluates_first envA (withTable []) 7 scenarioReport
  refine ⟨hev, ?_, ?_⟩
  · rw [h₁, hev]
    rfl
  · rw [h₃ _ hev]
    decide!

/-- C10 (frame).  When `EvaluateHandover` returns, it returns the object as it
received it.  For every store and report, `DoReportUeMeas` ends in one of
three ways: it returns the object with the report's entries upserted into the
row of `rnti` in list order when `haveMeasResultNeighCells` is set, and the
object unchanged otherwise; or it aborts on the assertion (assertions
compiled in, `haveMeasResultNeighCells` set and an entry without RSRQ); or it
is ended by the exception of `std::stod` on a file of a key of the row of
`rnti`.  It returns whenever no such file makes `std::stod` throw and no entry
lacks its RSRQ or assertions are compiled out; it then returns the object
unchanged when the flag is unset or the list is empty; and the row of every
other terminal is the same before and after. -/
theorem DoReportUeMeas_frame (env : Env) (self : MultiHandoverAlgorithm) (rnti : Nat)
    (measResults : MeasResults) :
    (∀ servingCellRsrq measId res,
      EvaluateHandover env self rnti servingCellRsrq measId = Except.ok res → res.1 = self) ∧
    ((DoReportUeMeas env self rnti measResults).2 =
        Except.ok (if measResults.haveMeasResultNeighCells = true then
          upsertAll self rnti measResults.measResultListEutra else self) ∨
      (env.assertEnabled = true ∧ measResults.haveMeasResultNeighCells = true ∧
        (∃ it ∈ measResults.measResultListEutra, it.haveRsrqResult = false) ∧
        (DoReportUeMeas env self rnti measResults).2 = Except.error Failure.assertion) ∨
      ((∃ c ∈ mapKeys (rowOf self.m_neighbourCellMeasures rnti),
          env.qoeTorre c = CellFile.invalid ∨ env.qosTorre c = CellFile.invalid) ∧
        (DoReportUeMeas env self rnti measResults).2 = Except.error Failure.stod)) ∧
    ((∀ c ∈ mapKeys (rowOf self.m_neighbourCellMeasures rnti),
        env.qoeTorre c ≠ CellFile.invalid ∧ env.qosTorre c ≠ CellFile.invalid) →
      (env.assertEnabled = true → measResults.haveMeasResultNeighCells = true →
        ∀ it ∈ measResults.measResultListEutra, it.haveRsrqResult = true) →
      (DoReportUeMeas env self rnti measResults).2 =
        Except.ok (if measResults.haveMeasResultNeighCells = true then
          upsertAll self rnti measResults.measResultListEutra else self)) ∧
    ((∀ c ∈ mapKeys (rowOf self.m_neighbourCellMeasures rnti),
        env.qoeTorre c ≠ CellFile.invalid ∧ env.qosTorre c ≠ CellFile.invalid) →
      measResults.haveMeasResultNeighCells = false ∨ measResults.measResultListEutra = [] →
      (DoReportUeMeas env self rnti measResults).2 = Except.ok self) ∧
    (∀ t', t' ≠ rnti →
      mapFind t' (if measResults.haveMeasResultNeighCells = true then
          upsertAll self rnti measResults.measResultListEutra else self).m_neighbourCellMeasures =
        mapFind t' self.m_neighbourCellMeasures) := by
  refine ⟨fun r m res h => EvaluateHandover_fst env self rnti r m res h, ?_, ?_, ?_, ?_⟩
  · cases hev : EvaluateHandover env self rnti measResults.rsrqResult measResults.measId with
    | error f =>
      obtain ⟨hf, hinv⟩ := EvaluateHandover_error env self rnti _ _ f hev
      right
      right
      rw [DoReportUeMeas_snd_of_error env self rnti measResults f hev, hf]
      exact ⟨hinv, rfl⟩
    | ok res =>
      rw [DoReportUeMeas_snd_of_ok env self rnti measResults res hev]
      by_cases hh : measResults.haveMeasResultNeighCells = true
      · by_cases hl : measResults.measResultListEutra = []
        · rw [if_neg (fun hc => hc.2 hl), if_pos hh, hl]
          exact Or.inl rfl
        · rw [if_pos ⟨hh, hl⟩, if_pos hh]
          rcases reportLoop_cases env rnti measResults.measResultListEutra self with
            h | ⟨ha, hex, hmsg⟩
          · exact Or.inl h
          · exact Or.inr (Or.inl ⟨ha, hh, hex, hmsg⟩)
      · rw [if_neg (fun hc => hh hc.1), if_neg hh]
        exact Or.inl rfl
  · intro hfiles hvalid
    obtain ⟨calls, hev⟩ := EvaluateHandover_ok_of_valid env self rnti measResults.rsrqResult
      measResults.measId hfiles
    rw [DoReportUeMeas_snd_of_ok env self rnti measResults _ hev]
    by_cases hh : measResults.haveMeasResultNeighCells = true
    · by_cases hl : measResults.measResultListEutra = []
      · rw [if_neg (fun hc => hc.2 hl), if_pos hh, hl]
        rfl
      · rw [if_pos ⟨hh, hl⟩, if_pos hh]
        exact reportLoop_ok env rnti _ self (fun ha => hvalid ha hh)
    · rw [if_neg (fun hc => hh hc.1), if_neg hh]
  · intro hfiles hor
    obtain ⟨calls, hev⟩ := EvaluateHandover_ok_of_valid env self rnti measResults.rsrqResult
      measResults.measId hfiles
    rw [DoReportUeMeas_snd_of_ok env self rnti measResults _ hev]
    rcases hor with hf | hl
    · rw [if_neg (fun hc => by rw [hf] at hc; exact absurd hc.1 (by decide))]
    · rw [if_neg (fun hc => hc.2 hl)]
  · intro t' ht'
    split
    · exact upsertAll_find_ne self rnti t' _ ht'
    · rfl

/-- Under C10: the report of Scenario A on an empty store, evaluated at 6 s,
reads no file, trips no assertion and returns the store with the entry of
cell 2 upserted into the row of terminal 7. -/
theorem DoReportUeMeas_frame_witness :
    (∀ it ∈ scenarioReport.measResultListEutra, it.haveRsrqResult = true) ∧
    ((DoReportUeMeas envA (withTable []) 7 scenarioReport).2 =
      Except.ok (if scenarioReport.haveMeasResultNeighCells = true then
        upsertAll (withTable []) 7 scenarioReport.measResultListEutra else withTable [])) ∧
    (upsertAll (withTable []) 7 scenarioReport.measResultListEutra).m_neighbourCellMeasures =
      scenarioTable :=
  ⟨by decide,
    (DoReportUeMeas_frame envA (withTable []) 7 scenarioReport).2.2.1
      (fun c hc => absurd hc (List.not_mem_nil c)) (fun _ _ => by decide),
    rfl⟩

/-- C11 as stated fails.  With assertions compiled in, at 6 s, terminal 7
having neighbour 2 stored and the file `qoeTorre2` holding a token on which
`std::stod` throws: the report of Scenario A, whose only entry carries its
RSRQ, does not complete; the call is ended by the exception. -/
theorem DoReportUeMeas_stod_abort :
    envInvalid.assertEnabled = true ∧
    (∀ it ∈ scenarioReport.measResultListEutra, it.haveRsrqResult = true) ∧
    DoReportUeMeas envInvalid (withTable scenarioTable) 7 scenarioReport =
      ([], Except.error Failure.stod) := by
  decide!

/-- C11, amended (fail-fast on a broken report).  With assertions compiled in
and no file `qoeTorre<c>` or `qosTorre<c>` of a key `c` of the terminal's row on
which `std::stod` throws, `DoReportUeMeas` fails if and only if
`haveMeasResultNeighCells` is set and the neighbour list holds an entry whose
`haveRsrqResult` is false, and the failure is the assertion; in every other
such case, whatever the store, the terminal's samples and the rest of the
report, it completes and returns the object. -/
theorem DoReportUeMeas_fails_iff (env : Env) (self : MultiHandoverAlgorithm) (rnti : Nat)
    (measResults : MeasResults) (ha : env.assertEnabled = true)
    (hfiles : ∀ c ∈ mapKeys (rowOf self.m_neighbourCellMeasures rnti),
      env.qoeTorre c ≠ CellFile.invalid ∧ env.qosTorre c ≠ CellFile.invalid) :
    ((∃ f, (DoReportUeMeas env self rnti measResults).2 = Except.error f) ↔
      (measResults.haveMeasResultNeighCells = true ∧
        ∃ it ∈ measResults.measResultListEutra, it.haveRsrqResult = false)) ∧
    (∀ f, (DoReportUeMeas env self rnti measResults).2 = Except.error f →
      f = Failure.assertion) ∧
    (¬ (measResults.haveMeasResultNeighCells = true ∧
        ∃ it ∈ measResults.measResultListEutra, it.haveRsrqResult = false) →
      ∃ self', (DoReportUeMeas env self rnti measResults).2 = Except.ok self') := by
  obtain ⟨calls, hev⟩ := EvaluateHandover_ok_of_valid env self rnti measResults.rsrqResult
    measResults.measId hfiles
  have hsnd := DoReportUeMeas_snd_of_ok env self rnti measResults _ hev
  have hiff : (∃ f, (DoReportUeMeas env self rnti measResults).2 = Except.error f) ↔
      (measResults.haveMeasResultNeighCells = true ∧
        ∃ it ∈ measResults.measResultListEutra, it.haveRsrqResult = false) := by
    rw [hsnd]
    constructor
    · rintro ⟨f, hf⟩
      by_cases hc : measResults.haveMeasResultNeighCells = true ∧
          ¬ measResults.measResultListEutra = []
      · rw [if_pos hc] at hf
        rcases reportLoop_cases env rnti measResults.measResultListEutra self with
          hok | ⟨_, hex, _⟩
        · rw [hok] at hf
          exact absurd hf (by simp)
        · exact ⟨hc.1, hex⟩
      · rw [if_neg hc] at hf
        exact absurd hf (by simp)
    · rintro ⟨hh, it, hit, hf⟩
      rw [if_pos ⟨hh, List.ne_nil_of_mem hit⟩]
      exact ⟨_, reportLoop_error env rnti _ self ha ⟨it, hit, hf⟩⟩
  refine ⟨hiff, fun f hf => ?_, fun hno => ?_⟩
  · rw [hsnd] at hf
    by_cases hc : measResults.haveMeasResultNeighCells = true ∧
        ¬ measResults.measResultListEutra = []
    · rw [if_pos hc] at hf
      rcases reportLoop_cases env rnti measResults.measResultListEutra self with
        hok | ⟨_, _, hmsg⟩
      · rw [hok] at hf
        exact absurd hf (by simp)
      · rw [hmsg] at hf
        simp only [Except.error.injEq] at hf
        exact hf.symm
    · rw [if_neg hc] at hf
      exact absurd hf (by simp)
  · cases hres : (DoReportUeMeas env self rnti measResults).2 with
    | error f => exact absurd (hiff.1 ⟨f, hres⟩) hno
    | ok s => exact ⟨s, rfl⟩

/-- Under the amended C11, with assertions compiled in and Scenario A's files:
the report whose entry for cell 2 has no RSRQ fails on the assertion, and the
report of Scenario A completes, for the unknown terminal 7. -/
theorem DoReportUeMeas_fails_iff_witness :
    envA.assertEnabled = true ∧
    (DoReportUeMeas envA (withTable []) 7 brokenReport).2 = Except.error Failure.assertion ∧
    (∃ self', (DoReportUeMeas envA (withTable []) 7 scenarioReport).2 = Except.ok self') := by
  have hfiles : ∀ c ∈ mapKeys (rowOf (withTable []).m_neighbourCellMeasures 7),
      envA.qoeTorre c ≠ CellFile.invalid ∧ envA.qosTorre c ≠ CellFile.invalid :=
    fun c hc => absurd hc (List.not_mem_nil c)
  have h₁ := DoReportUeMeas_fails_iff envA (withTable []) 7 brokenReport rfl hfiles
  have h₂ := DoReportUeMeas_fails_iff envA (withTable []) 7 scenarioReport rfl hfiles
  obtain ⟨f, hf⟩ := h₁.1.2 ⟨rfl, { physCellId := 2, haveRsrqResult := false, rsrqResult := 0 },
    by simp [brokenReport], rfl⟩
  refine ⟨rfl, ?_, h₂.2.2 (by simp [scenarioReport])⟩
  rw [hf, h₁.2.1 f hf]

/-! ## The serving-cell threshold is not consulted: C12 -/

/-- C12 (code at the failing input).  With `ServingCellThreshold` at its default
30 and a serving RSRQ of 34, not below the threshold, `EvaluateHandover` on
Scenario A's store and provider still calls `TriggerHandover (7, 2)`: the
serving cell scores `34 * 0.2`, neighbour 2 scores 7.89, and the threshold is
not consulted. -/
theorem EvaluateHandover_ignores_servingCellThreshold :
    (withTable scenarioTable).m_servingCellThreshold = 30 ∧
    (withTable scenarioTable).m_servingCellThreshold ≤ 34 ∧
    soma (servingCell 34 (orZero (envA.rntiQoe 7)) (orZero (envA.rntiQos 7))
      (envA.rntiCell 7)) = Double.mul (Double.ofNat 34) (Double.ofScientific 2 1) ∧
    (cellsA 34).map soma =
      [Double.ofScientific 789 2, Double.mul (Double.ofNat 34) (Double.ofScientific 2 1)] ∧
    EvaluateHandover envA (withTable scenarioTable) 7 34 0 =
      Except.ok (withTable scenarioTable, [(7, 2)]) := by
  decide!

/-! ## Serving cell and neighbours are scored on different samples: C13 -/

/-- The quality values of the serving-cell line are the terminal's own. -/
theorem servingCell_eq (servingCellRsrq : Nat) (qoeAtual qosAtual : Double) (b : Int) :
    servingCell servingCellRsrq qoeAtual qosAtual b =
      { rsrq := Double.ofNat servingCellRsrq, qoe := qoeAtual, qos := qosAtual, id := b } := by
  unfold servingCell
  by_cases h₁ : qoeAtual = Double.finite 0 <;> by_cases h₂ : qosAtual = Double.finite 0 <;>
    simp [h₁, h₂]

/-- Two providers that agree on the cell files of every key of the row build
the same neighbour candidates. -/
theorem neighbourCells_congr (env₁ env₂ : Env) (row : MeasurementRow_t)
    (h : ∀ c ∈ mapKeys row,
      env₁.qoeTorre c = env₂.qoeTorre c ∧ env₁.qosTorre c = env₂.qosTorre c) :
    neighbourCells env₁ row = neighbourCells env₂ row := by
  induction row with
  | nil => rfl
  | cons e rest ih =>
    have he := h e.1 (List.mem_map.2 ⟨e, List.mem_cons_self e rest, rfl⟩)
    have hrest : ∀ c ∈ mapKeys rest,
        env₁.qoeTorre c = env₂.qoeTorre c ∧ env₁.qosTorre c = env₂.qosTorre c := by
      intro c hc
      obtain ⟨x, hx, hxc⟩ := List.mem_map.1 hc
      exact h c (List.mem_map.2 ⟨x, List.mem_cons_of_mem e hx, hxc⟩)
    simp only [neighbourCells, neighbourCell, he.1, he.2, ih hrest]

theorem scoreAndTrigger_env_congr (env₁ env₂ : Env) (self : MultiHandoverAlgorithm)
    (row : MeasurementRow_t) (rnti servingCellRsrq : Nat)
    (hcell : env₁.rntiCell rnti = env₂.rntiCell rnti)
    (hqoe : env₁.rntiQoe rnti = env₂.rntiQoe rnti)
    (hqos : env₁.rntiQos rnti = env₂.rntiQos rnti)
    (h : ∀ c ∈ mapKeys row,
      env₁.qoeTorre c = env₂.qoeTorre c ∧ env₁.qosTorre c = env₂.qosTorre c) :
    scoreAndTrigger env₁ self row rnti servingCellRsrq =
      scoreAndTrigger env₂ self row rnti servingCellRsrq := by
  unfold scoreAndTrigger buildCells
  rw [neighbourCells_congr env₁ env₂ row h, hcell, hqoe, hqos]

/-- C13 (serving/neighbour asymmetry).  The serving-cell candidate scores
`servingCellRsrq * 0.2 + tQoe * 0.4 + tQos * 0.1` on the terminal's own samples
(0 when absent); the candidate of a neighbour entry scores on its stored RSRQ
and the values read from the files of its cell id.  Hence, for two providers
with the same time and the same serving cell id and terminal samples for
`rnti`, which agree on the files of every cell other than the serving cell,
and a store in which the serving cell id is not a key of the row of `rnti`,
`EvaluateHandover` has the same outcome. -/
theorem EvaluateHandover_serving_aggregate_unused (env₁ env₂ : Env)
    (self : MultiHandoverAlgorithm) (rnti servingCellRsrq measId : Nat)
    (hnow : env₁.now = env₂.now)
    (hcell : env₁.rntiCell rnti = env₂.rntiCell rnti)
    (hqoe : env₁.rntiQoe rnti = env₂.rntiQoe rnti)
    (hqos : env₁.rntiQos rnti = env₂.rntiQos rnti)
    (hagg : ∀ c : Nat, (c : Int) ≠ env₁.rntiCell rnti →
      env₁.qoeTorre c = env₂.qoeTorre c ∧ env₁.qosTorre c = env₂.qosTorre c)
    (hkey : ∀ c ∈ mapKeys (rowOf self.m_neighbourCellMeasures rnti),
      (c : Int) ≠ env₁.rntiCell rnti) :
    soma (servingCell servingCellRsrq (orZero (env₁.rntiQoe rnti)) (orZero (env₁.rntiQos rnti))
        (env₁.rntiCell rnti)) =
      Double.add
        (Double.add (Double.mul (Double.ofNat servingCellRsrq) (Double.ofScientific 2 1))
          (Double.mul (orZero (env₁.rntiQoe rnti)) (Double.ofScientific 4 1)))
        (Double.mul (orZero (env₁.rntiQos rnti)) (Double.ofScientific 1 1)) ∧
    (∀ (e : Nat × UeMeasure) (cell : Cell), neighbourCell env₁ e = Except.ok cell →
      readCellFile (env₁.qoeTorre e.1) = Except.ok cell.qoe ∧
      readCellFile (env₁.qosTorre e.1) = Except.ok cell.qos ∧
      soma cell =
        Double.add
          (Double.add (Double.mul (Double.ofNat e.2.m_rsrq) (Double.ofScientific 2 1))
            (Double.mul cell.qoe (Double.ofScientific 4 1)))
          (Double.mul cell.qos (Double.ofScientific 1 1))) ∧
    EvaluateHandover env₁ self rnti servingCellRsrq measId =
      EvaluateHandover env₂ self rnti servingCellRsrq measId := by
  refine ⟨?_, ?_, ?_⟩
  · rw [servingCell_eq]
    unfold soma
    rw [Double.mul_swap (Double.ofScientific 1 1)]
  · intro e cell hcellok
    obtain ⟨hrsrq, hfqoe, hfqos, _⟩ := neighbourCell_ok env₁ e cell hcellok
    refine ⟨hfqoe, hfqos, ?_⟩
    unfold soma
    rw [hrsrq, Double.mul_swap (Double.ofScientific 1 1)]
  · unfold EvaluateHandover
    rw [hnow, hqoe]
    cases hrow : mapFind rnti self.m_neighbourCellMeasures with
    | none => rfl
    | some row =>
      have hrowOf : rowOf self.m_neighbourCellMeasures rnti = row := by
        unfold rowOf
        rw [hrow]
        rfl
      rw [hrowOf] at hkey
      dsimp only
      rw [scoreAndTrigger_env_congr env₁ env₂ self row rnti servingCellRsrq hcell hqoe hqos
        (fun c hc => hagg c (hkey c hc))]

/-- Under C13: Scenario A's provider and the same provider with the files of
the serving cell 1 holding QoE 5 and QoS 1 have the same outcome on Scenario
A's store, whose row for terminal 7 has the single key 2. -/
theorem EvaluateHandover_serving_aggregate_unused_witness :
    (withCellSample envA 1 (CellFile.value (Double.finite 5))
      (CellFile.value (Double.finite 1))).qoeTorre 1 ≠ envA.qoeTorre 1 ∧
    EvaluateHandover envA (withTable scenarioTable) 7 10 0 =
      EvaluateHandover (withCellSample envA 1 (CellFile.value (Double.finite 5))
        (CellFile.value (Double.finite 1))) (withTable scenarioTable) 7 10 0 :=
  ⟨by decide!,
    (EvaluateHandover_serving_aggregate_unused envA
      (withCellSample envA 1 (CellFile.value (Double.finite 5))
        (CellFile.value (Double.finite 1)))
      (withTable scenarioTable) 7 10 0 rfl rfl rfl rfl
      (by
        intro c hc
        have hc1 : c ≠ 1 := by
          intro h
          apply hc
          rw [h]
          rfl
        simp [withCellSample, hc1])
      (by
        intro c hc
        have hc2 : c = 2 := by
          simpa [mapKeys, rowOf, withTable, scenarioTable, mapFind] using hc
        rw [hc2]
        decide)).2.2⟩

/-! ## What a triggered target satisfies: C14, C16, C17, C18 -/

/-- What a call of `TriggerHandover` implies: the terminal is the reporting
one, the target is not 0 and not the serving cell id, and it is the id of a
candidate whose score is a number above 5 that no candidate's score
exceeds. -/
theorem EvaluateHandover_call (env : Env) (self : MultiHandoverAlgorithm)
    (rnti servingCellRsrq measId t c : Nat)
    (hcall : (t, c) ∈ callsOf (EvaluateHandover env self rnti servingCellRsrq measId)) :
    t = rnti ∧ c ≠ 0 ∧ (c : Int) ≠ env.rntiCell rnti ∧
    ∃ row cells, mapFind rnti self.m_neighbourCellMeasures = some row ∧
      buildCells env row servingCellRsrq (orZero (env.rntiQoe rnti))
        (orZero (env.rntiQos rnti)) (env.rntiCell rnti) = Except.ok cells ∧
      ∃ cell ∈ cells, toUint16 cell.id = c ∧
        Double.gt (soma cell) (Double.finite 5) = true ∧ soma cell ≠ Double.nan ∧
        ∀ d ∈ cells, Double.gt (soma d) (soma cell) = false := by
  rcases EvaluateHandover_cases env self rnti servingCellRsrq measId with
    hnil | ⟨row, hrow, _, _, hst⟩
  · rw [hnil] at hcall
    exact absurd hcall (List.not_mem_nil _)
  · rw [hst] at hcall
    cases hb : buildCells env row servingCellRsrq (orZero (env.rntiQoe rnti))
        (orZero (env.rntiQos rnti)) (env.rntiCell rnti) with
    | error f =>
      rw [scoreAndTrigger_error env self row rnti servingCellRsrq f hb] at hcall
      exact absurd hcall (List.not_mem_nil _)
    | ok cells =>
      rw [scoreAndTrigger_ok env self row rnti servingCellRsrq cells hb] at hcall
      obtain ⟨ht, hc, h0, hcb, h5⟩ := mem_trigger rnti _ _ t c hcall
      obtain ⟨cell, hcell, hsel, hnan, hmax⟩ := selected_of_floor cells (env.rntiCell rnti) h5
      rw [hsel] at hc h0 hcb h5
      rw [hc]
      exact ⟨ht, h0, hcb, row, cells, hrow, hb, cell, hcell, rfl, h5, hnan, hmax⟩

/-- With cell ids in the `uint16_t` range, the candidate behind a call is the
line of a neighbour entry of the row, stored under the target cell id. -/
theorem EvaluateHandover_call_neighbour (env : Env) (self : MultiHandoverAlgorithm)
    (rnti servingCellRsrq measId t c : Nat)
    (hb₀ : 0 ≤ env.rntiCell rnti) (hb₁ : env.rntiCell rnti < 65536)
    (hkeys : ∀ k ∈ mapKeys (rowOf self.m_neighbourCellMeasures rnti), k < 65536)
    (hcall : (t, c) ∈ callsOf (EvaluateHandover env self rnti servingCellRsrq measId)) :
    ∃ m cell, (c, m) ∈ rowOf self.m_neighbourCellMeasures rnti ∧
      neighbourCell env (c, m) = Except.ok cell ∧
      Double.gt (soma cell) (Double.finite 5) = true := by
  obtain ⟨_, _, hcb, row, cells, hrow, hbuild, cell, hcell, hid, h5, _, _⟩ :=
    EvaluateHandover_call env self rnti servingCellRsrq measId t c hcall
  have hrowOf : rowOf self.m_neighbourCellMeasures rnti = row := by
    unfold rowOf
    rw [hrow]
    rfl
  rw [hrowOf] at hkeys ⊢
  rcases mem_buildCells env row _ _ _ _ cells cell hbuild hcell with ⟨e, he, hec⟩ | hs
  · obtain ⟨_, _, _, heid⟩ := neighbourCell_ok env e cell hec
    have hk : e.1 < 65536 := hkeys e.1 (mem_mapKeys_of_mem row e.1 e.2 he)
    have hce : e.1 = c := by
      rw [heid, toUint16_natCast e.1 hk] at hid
      exact hid
    have hee : e = (c, e.2) := by
      rw [← hce]
    rw [hee] at he hec
    exact ⟨e.2, cell, he, hec, h5⟩
  · exfalso
    apply hcb
    rw [hs] at hid
    have hsid : (servingCell servingCellRsrq (orZero (env.rntiQoe rnti))
        (orZero (env.rntiQos rnti)) (env.rntiCell rnti)).id = env.rntiCell rnti := rfl
    rw [hsid] at hid
    rw [← hid]
    exact toUint16_of_range _ hb₀ hb₁

/-- The score of a line whose quality values are both 0, for each RSRQ of the
`uint8_t` range: it is `rsrq * 0.2`, it is not above 5 up to RSRQ 25, and up
to RSRQ 34 it is not above the score at 34. -/
theorem soma_zero_quality :
    (∀ r < 256, soma (mkCell r (Double.finite 0) (Double.finite 0) 0) =
      Double.mul (Double.ofNat r) (Double.ofScientific 2 1)) ∧
    (∀ r < 26, Double.gt (soma (mkCell r (Double.finite 0) (Double.finite 0) 0))
      (Double.finite 5) = false) ∧
    (∀ r < 35, Double.gt (soma (mkCell r (Double.finite 0) (Double.finite 0) 0))
      (Double.finite (7656119366529844 / 2 ^ 50)) = false) := by
  decide!

theorem soma_mkCell_id (r : Nat) (qoe qos : Double) (id : Int) :
    soma (mkCell r qoe qos id) = soma (mkCell r qoe qos 0) := rfl

theorem neighbourCell_missing (env : Env) (e : Nat × UeMeasure)
    (hqoe : env.qoeTorre e.1 = CellFile.missing) (hqos : env.qosTorre e.1 = CellFile.missing) :
    neighbourCell env e =
      Except.ok (mkCell e.2.m_rsrq (Double.finite 0) (Double.finite 0) (e.1 : Int)) := by
  unfold neighbourCell
  rw [hqoe, hqos]
  rfl

theorem quiet_call :
    EvaluateHandover quietEnv (withTable scenarioTable) 7 10 0 =
      Except.ok (withTable scenarioTable, [(7, 2)]) := by
  decide!

theorem scenario_keys (k : Nat)
    (hk : k ∈ mapKeys (rowOf (withTable scenarioTable).m_neighbourCellMeasures 7)) :
    k < 65536 := by
  have hk2 : k = 2 := by
    simpa [mapKeys, rowOf, withTable, scenarioTable, mapFind] using hk
  rw [hk2]
  decide

/-- C14 as stated fails.  At 6 s, with no quality file anywhere, a neighbour 2
stored with RSRQ 34, in the range `0..34`, has the score `34 * 0.2` as the
code computes it, which is above the `double` 6.8.  And with the serving cell
id -1 and serving RSRQ 34, a neighbour 65535 stored with RSRQ 0, below 26, is
the target of the call. -/
theorem neighbour_without_samples_exceeds :
    quietEnv.qoeTorre 2 = CellFile.missing ∧ quietEnv.qosTorre 2 = CellFile.missing ∧
    neighbourCell quietEnv (2, { m_cellId := 2, m_rsrp := 0, m_rsrq := 34 }) =
      Except.ok (mkCell 34 (Double.finite 0) (Double.finite 0) 2) ∧
    soma (mkCell 34 (Double.finite 0) (Double.finite 0) 2) =
      Double.finite (7656119366529844 / 2 ^ 50) ∧
    Double.ofScientific 68 1 = Double.finite (7656119366529843 / 2 ^ 50) ∧
    Double.gt (soma (mkCell 34 (Double.finite 0) (Double.finite 0) 2))
      (Double.ofScientific 68 1) = true ∧
    EvaluateHandover (withServingCell quietEnv (-1)) (withTable [(7, oneNeighbour 65535 0)])
      7 34 0 = Except.ok (withTable [(7, oneNeighbour 65535 0)], [(7, 65535)]) := by
  decide!

/-- C14, amended (unknown-to-zero defaulting).  A neighbour entry whose files
`qoeTorre<c>` and `qosTorre<c>` are both missing or empty gets both quality
values 0 and, for an RSRQ of the `uint8_t` range, the score `rsrq * 0.2` as
the code computes it in `double`; for an RSRQ up to 34 that score is not above
the score at 34, which is `34 * 0.2`.  And when the serving cell id is in
`0..65535`, the keys of the row being below 2^16, a call
`TriggerHandover (t, c)` for a cell `c` whose files are both missing or empty
is made only if the row holds an entry of `c` with an RSRQ of at least 26. -/
theorem neighbour_without_samples (env : Env) (self : MultiHandoverAlgorithm)
    (rnti servingCellRsrq measId : Nat) :
    (∀ e : Nat × UeMeasure, env.qoeTorre e.1 = CellFile.missing →
      env.qosTorre e.1 = CellFile.missing →
      neighbourCell env e =
        Except.ok (mkCell e.2.m_rsrq (Double.finite 0) (Double.finite 0) (e.1 : Int)) ∧
      (e.2.m_rsrq ≤ 255 →
        soma (mkCell e.2.m_rsrq (Double.finite 0) (Double.finite 0) (e.1 : Int)) =
          Double.mul (Double.ofNat e.2.m_rsrq) (Double.ofScientific 2 1)) ∧
      (e.2.m_rsrq ≤ 34 →
        Double.gt (soma (mkCell e.2.m_rsrq (Double.finite 0) (Double.finite 0) (e.1 : Int)))
          (Double.mul (Double.ofNat 34) (Double.ofScientific 2 1)) = false)) ∧
    (∀ t c : Nat, (t, c) ∈ callsOf (EvaluateHandover env self rnti servingCellRsrq measId) →
      env.qoeTorre c = CellFile.missing → env.qosTorre c = CellFile.missing →
      0 ≤ env.rntiCell rnti → env.rntiCell rnti < 65536 →
      (∀ k ∈ mapKeys (rowOf self.m_neighbourCellMeasures rnti), k < 65536) →
      ∃ m, (c, m) ∈ rowOf self.m_neighbourCellMeasures rnti ∧ 26 ≤ m.m_rsrq) := by
  have h34 : Double.mul (Double.ofNat 34) (Double.ofScientific 2 1) =
      Double.finite (7656119366529844 / 2 ^ 50) := by decide!
  refine ⟨fun e hqoe hqos => ⟨neighbourCell_missing env e hqoe hqos, fun h => ?_, fun h => ?_⟩,
    ?_⟩
  · rw [soma_mkCell_id]
    exact soma_zero_quality.1 e.2.m_rsrq (by omega)
  · rw [soma_mkCell_id, h34]
    exact soma_zero_quality.2.2 e.2.m_rsrq (by omega)
  · intro t c hcall hqoe hqos hb₀ hb₁ hkeys
    obtain ⟨m, cell, hm, hcell, h5⟩ :=
      EvaluateHandover_call_neighbour env self rnti servingCellRsrq measId t c hb₀ hb₁ hkeys hcall
    refine ⟨m, hm, ?_⟩
    rw [neighbourCell_missing env (c, m) hqoe hqos] at hcell
    simp only [Except.ok.injEq] at hcell
    rw [← hcell, soma_mkCell_id] at h5
    by_contra hlt
    have hlow := soma_zero_quality.2.1 m.m_rsrq (by omega)
    rw [hlow] at h5
    exact absurd h5 (by decide)

/-- Under the amended C14: with no quality file anywhere, serving cell 1 with
serving RSRQ 10 and neighbour 2 at RSRQ 30, the neighbour's score is
`30 * 0.2`, which is 6, the call is `TriggerHandover (7, 2)` and the entry of
cell 2 has an RSRQ of at least 26. -/
theorem neighbour_without_samples_witness :
    soma (mkCell 30 (Double.finite 0) (Double.finite 0) 2) = Double.finite 6 ∧
    (7, 2) ∈ callsOf (EvaluateHandover quietEnv (withTable scenarioTable) 7 10 0) ∧
    ∃ m, (2, m) ∈ rowOf (withTable scenarioTable).m_neighbourCellMeasures 7 ∧ 26 ≤ m.m_rsrq :=
  ⟨by decide!,
    by rw [quiet_call]; exact List.mem_singleton.2 rfl,
    (neighbour_without_samples quietEnv (withTable scenarioTable) 7 10 0).2 7 2
      (by rw [quiet_call]; exact List.mem_singleton.2 rfl) rfl rfl
      (by decide) (by decide) scenario_keys⟩

/-- C16 as stated fails.  At 6 s, terminal 7 served by cell 1 with serving
RSRQ 0 and neighbours 2 and 3 both stored with RSRQ 30, the file `qoeTorre2`
holding the token `nan`: the candidate of cell 2 scores NaN, that of cell 3
scores 6 and the serving cell 0; the call is `TriggerHandover (7, 3)`, and the
score of cell 3 is not greater than or equal to the score of the candidate of
cell 2. -/
theorem EvaluateHandover_target_not_ge :
    buildCells nanEnv (twoNeighbours 30 30) 0 (orZero (nanEnv.rntiQoe 7))
      (orZero (nanEnv.rntiQos 7)) (nanEnv.rntiCell 7) = Except.ok cellsNan ∧
    cellsNan.map (fun d => (d.id, soma d)) =
      [(2, Double.nan), (3, Double.finite 6), (1, Double.finite 0)] ∧
    EvaluateHandover nanEnv (withTable [(7, twoNeighbours 30 30)]) 7 0 0 =
      Except.ok (withTable [(7, twoNeighbours 30 30)], [(7, 3)]) ∧
    Double.le Double.nan (Double.finite 6) = false := by
  decide!

/-- C16, amended (no candidate scores higher than the target).  When
`EvaluateHandover` calls `TriggerHandover (t, c)`, the candidate array of the
evaluation was built and holds the line of every neighbour entry of the
terminal's row and the line of the serving cell, and `c` is the id, as a
`uint16_t`, of a candidate whose composite score is a number, which no
candidate's score exceeds and which is greater than or equal to every
candidate's score that is a number. -/
theorem EvaluateHandover_target_scores_highest (env : Env) (self : MultiHandoverAlgorithm)
    (rnti servingCellRsrq measId t c : Nat)
    (hcall : (t, c) ∈ callsOf (EvaluateHandover env self rnti servingCellRsrq measId)) :
    ∃ row cells, mapFind rnti self.m_neighbourCellMeasures = some row ∧
      buildCells env row servingCellRsrq (orZero (env.rntiQoe rnti))
        (orZero (env.rntiQos rnti)) (env.rntiCell rnti) = Except.ok cells ∧
      (∀ e ∈ row, ∃ d ∈ cells, neighbourCell env e = Except.ok d) ∧
      servingCell servingCellRsrq (orZero (env.rntiQoe rnti))
        (orZero (env.rntiQos rnti)) (env.rntiCell rnti) ∈ cells ∧
      ∃ cell ∈ cells, toUint16 cell.id = c ∧ soma cell ≠ Double.nan ∧
        (∀ d ∈ cells, Double.gt (soma d) (soma cell) = false) ∧
        (∀ d ∈ cells, soma d ≠ Double.nan → Double.le (soma d) (soma cell) = true) := by
  obtain ⟨_, _, _, row, cells, hrow, hbuild, cell, hcell, hid, _, hnan, hmax⟩ :=
    EvaluateHandover_call env self rnti servingCellRsrq measId t c hcall
  obtain ⟨cs, hcs, hcells⟩ := buildCells_ok env row _ _ _ _ cells hbuild
  refine ⟨row, cells, hrow, hbuild, fun e he => ?_, ?_, cell, hcell, hid, hnan, hmax,
    fun d hd hdnan => Double.le_of_not_lt hdnan hnan (hmax d hd)⟩
  · obtain ⟨d, hd, hed⟩ := neighbourCells_mem_row env row cs hcs e he
    exact ⟨d, by rw [hcells]; exact List.mem_append_left _ hd, hed⟩
  · rw [hcells]
    exact List.mem_append_right _ (List.mem_singleton.2 rfl)

/-- Under the amended C16: in the counterexample's evaluation the call is
`TriggerHandover (7, 3)`, and 3 is the id of a candidate whose score no
candidate's score exceeds. -/
theorem EvaluateHandover_target_scores_highest_witness :
    (7, 3) ∈ callsOf (EvaluateHandover nanEnv (withTable [(7, twoNeighbours 30 30)]) 7 0 0) ∧
    ∃ row cells, mapFind 7 (withTable [(7, twoNeighbours 30 30)]).m_neighbourCellMeasures =
        some row ∧
      buildCells nanEnv row 0 (orZero (nanEnv.rntiQoe 7)) (orZero (nanEnv.rntiQos 7))
        (nanEnv.rntiCell 7) = Except.ok cells ∧
      ∃ cell ∈ cells, toUint16 cell.id = 3 ∧ soma cell ≠ Double.nan ∧
        ∀ d ∈ cells, Double.gt (soma d) (soma cell) = false := by
  have hcall : (7, 3) ∈
      callsOf (EvaluateHandover nanEnv (withTable [(7, twoNeighbours 30 30)]) 7 0 0) := by
    decide!
  obtain ⟨row, cells, hrow, hbuild, _, _, cell, hcell, hid, hnan, hmax, _⟩ :=
    EvaluateHandover_target_scores_highest nanEnv (withTable [(7, twoNeighbours 30 30)])
      7 0 0 7 3 hcall
  exact ⟨hcall, row, cells, hrow, hbuild, cell, hcell, hid, hnan, hmax⟩

/-- C17 as stated fails.  At 6 s, with no quality file anywhere, terminal 7
having the single neighbour 2 stored with RSRQ 30, the serving cell id read
from `rnti/7.txt` being -1 and the serving RSRQ 34: the serving-cell line
scores highest and the call is `TriggerHandover (7, 65535)`, whose target is
not a key of the row of terminal 7. -/
theorem EvaluateHandover_target_not_reported :
    (withServingCell quietEnv (-1)).rntiCell 7 = -1 ∧
    mapKeys (rowOf (withTable scenarioTable).m_neighbourCellMeasures 7) = [2] ∧
    (cellsOf (buildCells (withServingCell quietEnv (-1)) scenarioRow 34
      (orZero ((withServingCell quietEnv (-1)).rntiQoe 7))
      (orZero ((withServingCell quietEnv (-1)).rntiQos 7))
      ((withServingCell quietEnv (-1)).rntiCell 7))).map (fun d => (d.id, soma d)) =
      [(2, Double.finite 6), (-1, Double.finite (7656119366529844 / 2 ^ 50))] ∧
    EvaluateHandover (withServingCell quietEnv (-1)) (withTable scenarioTable) 7 34 0 =
      Except.ok (withTable scenarioTable, [(7, 65535)]) := by
  decide!

/-- C17, amended (the target is a reported neighbour).  When the serving cell
id read for the terminal is in `0..65535`, the keys of the row being below
2^16: if `EvaluateHandover` calls `TriggerHandover (t, c)`, then `t` is the
reporting terminal, `c` is a key of that terminal's row in the measurement
table, with a measurement stored under it, and `c` is not the cell id of the
serving-cell lookup. -/
theorem EvaluateHandover_target_is_reported (env : Env) (self : MultiHandoverAlgorithm)
    (rnti servingCellRsrq measId t c : Nat)
    (hb₀ : 0 ≤ env.rntiCell rnti) (hb₁ : env.rntiCell rnti < 65536)
    (hkeys : ∀ k ∈ mapKeys (rowOf self.m_neighbourCellMeasures rnti), k < 65536)
    (hcall : (t, c) ∈ callsOf (EvaluateHandover env self rnti servingCellRsrq measId)) :
    t = rnti ∧
    (∃ row, mapFind rnti self.m_neighbourCellMeasures = some row ∧ c ∈ mapKeys row ∧
      ∃ m, mapFind c row = some m) ∧
    (c : Int) ≠ env.rntiCell rnti := by
  obtain ⟨ht, _, hcb, row, _, hrow, _⟩ :=
    EvaluateHandover_call env self rnti servingCellRsrq measId t c hcall
  obtain ⟨m, _, hm, _⟩ :=
    EvaluateHandover_call_neighbour env self rnti servingCellRsrq measId t c hb₀ hb₁ hkeys hcall
  have hrowOf : rowOf self.m_neighbourCellMeasures rnti = row := by
    unfold rowOf
    rw [hrow]
    rfl
  rw [hrowOf] at hm
  have hkey : c ∈ mapKeys row := mem_mapKeys_of_mem row c m hm
  exact ⟨ht, ⟨row, hrow, hkey, (mapFind_isSome_iff_mem_mapKeys c row).2 hkey⟩, hcb⟩

/-- Under the amended C17: in Scenario A the serving cell id is 1, the call is
`TriggerHandover (7, 2)`, and 2 is a key of the row of terminal 7. -/
theorem EvaluateHandover_target_is_reported_witness :
    (0 ≤ envA.rntiCell 7 ∧ envA.rntiCell 7 < 65536) ∧
    (7, 2) ∈ callsOf (EvaluateHandover envA (withTable scenarioTable) 7 10 0) ∧
    ∃ row, mapFind 7 (withTable scenarioTable).m_neighbourCellMeasures = some row ∧
      2 ∈ mapKeys row ∧ ∃ m, mapFind 2 row = some m :=
  ⟨⟨by decide, by decide⟩,
    by rw [scenarioA_call]; exact List.mem_singleton.2 rfl,
    (EvaluateHandover_target_is_reported envA (withTable scenarioTable)
      7 10 0 7 2 (by decide) (by decide) scenario_keys
      (by rw [scenarioA_call]; exact List.mem_singleton.2 rfl)).2.1⟩

/-- C18 (no hysteresis margin).  At 6 s, with no quality sample anywhere,
terminal 7 served by cell 1 with serving RSRQ 30 and neighbour 2 stored with
RSRQ 30: the guards hold, the neighbour and the serving cell both score
exactly 6, and `EvaluateHandover` calls `TriggerHandover (7, 2)`. -/
theorem EvaluateHandover_no_hysteresis :
    Double.lt quietEnv.now (Double.finite 5) = false ∧
    mapFind 7 (withTable scenarioTable).m_neighbourCellMeasures =
      some [(2, { m_cellId := 2, m_rsrp := 0, m_rsrq := 30 })] ∧
    (neighbourCell quietEnv (2, { m_cellId := 2, m_rsrp := 0, m_rsrq := 30 })).map soma =
      Except.ok (Double.finite 6) ∧
    soma (servingCell 30 (orZero (quietEnv.rntiQoe 7)) (orZero (quietEnv.rntiQos 7))
      (quietEnv.rntiCell 7)) = Double.finite 6 ∧
    EvaluateHandover quietEnv (withTable scenarioTable) 7 30 0 =
      Except.ok (withTable scenarioTable, [(7, 2)]) := by
  decide!

/-! ## The neighbour offset is not consulted: C15 -/

/-- The outcome of `EvaluateHandover` depends on the object through its
measurement table only. -/
theorem EvaluateHandover_congr (env : Env) (s₁ s₂ : MultiHandoverAlgorithm)
    (rnti servingCellRsrq measId : Nat)
    (h : s₁.m_neighbourCellMeasures = s₂.m_neighbourCellMeasures) :
    (EvaluateHandover env s₁ rnti servingCellRsrq measId).map Prod.snd =
      (EvaluateHandover env s₂ rnti servingCellRsrq measId).map Prod.snd := by
  have hst : ∀ row, (scoreAndTrigger env s₁ row rnti servingCellRsrq).map Prod.snd =
      (scoreAndTrigger env s₂ row rnti servingCellRsrq).map Prod.snd := by
    intro row
    unfold scoreAndTrigger
    cases buildCells env row servingCellRsrq (orZero (env.rntiQoe rnti))
      (orZero (env.rntiQos rnti)) (env.rntiCell rnti) <;> rfl
  unfold EvaluateHandover
  rw [h]
  cases Double.lt env.now (Double.finite 5) with
  | true => rfl
  | false =>
    cases mapFind rnti s₂.m_neighbourCellMeasures with
    | none => rfl
    | some row =>
      cases env.rntiQoe rnti with
      | none => exact hst row
      | some q =>
        cases hq : Double.gt q (Double.finite 3) with
        | true =>
          simp only [hq]
          rfl
        | false =>
          simp only [hq]
          exact hst row

theorem callsOf_eq_of_map (r₁ r₂ : Except Failure (MultiHandoverAlgorithm × List (Nat × Nat)))
    (h : r₁.map Prod.snd = r₂.map Prod.snd) : callsOf r₁ = callsOf r₂ := by
  cases r₁ <;> cases r₂ <;> simp_all [Except.map, callsOf]

theorem reportLoop_store_congr (env : Env) (rnti : Nat) (l : List MeasResultEutra)
    (s₁ s₂ : MultiHandoverAlgorithm)
    (h : s₁.m_neighbourCellMeasures = s₂.m_neighbourCellMeasures) :
    storeOf (reportLoop env rnti l s₁) = storeOf (reportLoop env rnti l s₂) := by
  induction l generalizing s₁ s₂ with
  | nil =>
    simp only [reportLoop, storeOf]
    rw [h]
  | cons it rest ih =>
    unfold reportLoop
    by_cases hit : env.assertEnabled = true ∧ it.haveRsrqResult = false
    · rw [if_pos hit, if_pos hit]
    · rw [if_neg hit, if_neg hit]
      exact ih _ _ (UpdateNeighbourMeasurements_table_congr s₁ s₂ rnti _ _ h)

theorem DoReportUeMeas_congr (env : Env) (s₁ s₂ : MultiHandoverAlgorithm) (rnti : Nat)
    (measResults : MeasResults)
    (h : s₁.m_neighbourCellMeasures = s₂.m_neighbourCellMeasures) :
    (DoReportUeMeas env s₁ rnti measResults).1 = (DoReportUeMeas env s₂ rnti measResults).1 ∧
    storeOf (DoReportUeMeas env s₁ rnti measResults).2 =
      storeOf (DoReportUeMeas env s₂ rnti measResults).2 := by
  have hmap := EvaluateHandover_congr env s₁ s₂ rnti measResults.rsrqResult measResults.measId h
  constructor
  · rw [DoReportUeMeas_fst, DoReportUeMeas_fst]
    exact callsOf_eq_of_map _ _ hmap
  · cases h₁ : EvaluateHandover env s₁ rnti measResults.rsrqResult measResults.measId with
    | error f =>
      cases h₂ : EvaluateHandover env s₂ rnti measResults.rsrqResult measResults.measId with
      | error g =>
        rw [h₁, h₂] at hmap
        simp only [Except.map, Except.error.injEq] at hmap
        rw [DoReportUeMeas_snd_of_error env s₁ rnti measResults f h₁,
          DoReportUeMeas_snd_of_error env s₂ rnti measResults g h₂, hmap]
      | ok r =>
        rw [h₁, h₂] at hmap
        simp [Except.map] at hmap
    | ok r₁ =>
      cases h₂ : EvaluateHandover env s₂ rnti measResults.rsrqResult measResults.measId with
      | error g =>
        rw [h₁, h₂] at hmap
        simp [Except.map] at hmap
      | ok r₂ =>
        rw [DoReportUeMeas_snd_of_ok env s₁ rnti measResults r₁ h₁,
          DoReportUeMeas_snd_of_ok env s₂ rnti measResults r₂ h₂]
        by_cases hc : measResults.haveMeasResultNeighCells = true ∧
            ¬ measResults.measResultListEutra = []
        · rw [if_pos hc, if_pos hc]
          exact reportLoop_store_congr env rnti _ s₁ s₂ h
        · rw [if_neg hc, if_neg hc]
          simp only [storeOf]
          rw [h]

/-- The measurement table an `EvaluateHandover` outcome leaves is the one it
received. -/
theorem EvaluateHandover_store (env : Env) (self : MultiHandoverAlgorithm)
    (rnti servingCellRsrq measId : Nat) :
    storeOf ((EvaluateHandover env self rnti servingCellRsrq measId).map Prod.fst) =
      (EvaluateHandover env self rnti servingCellRsrq measId).map
        (fun _ => self.m_neighbourCellMeasures) := by
  cases h : EvaluateHandover env self rnti servingCellRsrq measId with
  | error f => rfl
  | ok res =>
    have hfst := EvaluateHandover_fst env self rnti servingCellRsrq measId res h
    simp only [Except.map, storeOf, hfst]

theorem Except_map_const {α β γ : Type} (r₁ r₂ : Except Failure (α × β)) (x : γ)
    (h : r₁.map Prod.snd = r₂.map Prod.snd) :
    r₁.map (fun _ => x) = r₂.map (fun _ => x) := by
  cases r₁ <;> cases r₂ <;> simp_all [Except.map]

/-- C15 (the neighbour offset is never consulted).  For every object,
provider, time and report and every two values of `NeighbourCellOffset`,
`EvaluateHandover` makes the same calls and leaves the same measurement
table, or is ended by the same exception, and `DoReportUeMeas` makes the same
calls and leaves the same measurement table, or is ended in the same way. -/
theorem NeighbourCellOffset_unused (env : Env) (self : MultiHandoverAlgorithm)
    (rnti servingCellRsrq measId : Nat) (measResults : MeasResults) (o₁ o₂ : Nat) :
    callsOf (EvaluateHandover env { self with m_neighbourCellOffset := o₁ } rnti servingCellRsrq
        measId) =
      callsOf (EvaluateHandover env { self with m_neighbourCellOffset := o₂ } rnti
        servingCellRsrq measId) ∧
    (EvaluateHandover env { self with m_neighbourCellOffset := o₁ } rnti servingCellRsrq
        measId).map Prod.snd =
      (EvaluateHandover env { self with m_neighbourCellOffset := o₂ } rnti servingCellRsrq
        measId).map Prod.snd ∧
    storeOf ((EvaluateHandover env { self with m_neighbourCellOffset := o₁ } rnti servingCellRsrq
        measId).map Prod.fst) =
      storeOf ((EvaluateHandover env { self with m_neighbourCellOffset := o₂ } rnti
        servingCellRsrq measId).map Prod.fst) ∧
    (DoReportUeMeas env { self with m_neighbourCellOffset := o₁ } rnti measResults).1 =
      (DoReportUeMeas env { self with m_neighbourCellOffset := o₂ } rnti measResults).1 ∧
    storeOf (DoReportUeMeas env { self with m_neighbourCellOffset := o₁ } rnti measResults).2 =
      storeOf (DoReportUeMeas env { self with m_neighbourCellOffset := o₂ } rnti measResults).2 := by
  have hmap := EvaluateHandover_congr env { self with m_neighbourCellOffset := o₁ }
    { self with m_neighbourCellOffset := o₂ } rnti servingCellRsrq measId rfl
  refine ⟨callsOf_eq_of_map _ _ hmap, hmap, ?_,
    (DoReportUeMeas_congr env { self with m_neighbourCellOffset := o₁ }
      { self with m_neighbourCellOffset := o₂ } rnti measResults rfl).1,
    (DoReportUeMeas_congr env { self with m_neighbourCellOffset := o₁ }
      { self with m_neighbourCellOffset := o₂ } rnti measResults rfl).2⟩
  rw [EvaluateHandover_store, EvaluateHandover_store]
  exact Except_map_const _ _ _ hmap

/-! ## The store invariant: C19 -/

theorem reportLoop_storeInv (env : Env) (rnti : Nat) (l : List MeasResultEutra)
    (self self' : MultiHandoverAlgorithm) (h : storeInv self.m_neighbourCellMeasures)
    (hok : reportLoop env rnti l self = Except.ok self') :
    storeInv self'.m_neighbourCellMeasures := by
  induction l generalizing self with
  | nil =>
    simp only [reportLoop, Except.ok.injEq] at hok
    rw [← hok]
    exact h
  | cons it rest ih =>
    unfold reportLoop at hok
    by_cases hit : env.assertEnabled = true ∧ it.haveRsrqResult = false
    · rw [if_pos hit] at hok
      exact absurd hok (by simp)
    · rw [if_neg hit] at hok
      exact ih _ (UpdateNeighbourMeasurements_storeInv self rnti _ _ h) hok

theorem DoReportUeMeas_storeInv (env : Env) (self self' : MultiHandoverAlgorithm) (rnti : Nat)
    (measResults : MeasResults) (h : storeInv self.m_neighbourCellMeasures)
    (hok : (DoReportUeMeas env self rnti measResults).2 = Except.ok self') :
    storeInv self'.m_neighbourCellMeasures := by
  cases hev : EvaluateHandover env self rnti measResults.rsrqResult measResults.measId with
  | error f =>
    rw [DoReportUeMeas_snd_of_error env self rnti measResults f hev] at hok
    exact absurd hok (by simp)
  | ok res =>
    rw [DoReportUeMeas_snd_of_ok env self rnti measResults res hev] at hok
    by_cases hc : measResults.haveMeasResultNeighCells = true ∧
        ¬ measResults.measResultListEutra = []
    · rw [if_pos hc] at hok
      exact reportLoop_storeInv env rnti _ self self' h hok
    · rw [if_neg hc] at hok
      simp only [Except.ok.injEq] at hok
      rw [← hok]
      exact h

/-- C19 (store invariant).  In the measurement table of every object reachable
from an empty table by calls of `UpdateNeighbourMeasurements` and completed
calls of `DoReportUeMeas`, every terminal's row is non-empty, and every
stored measurement has `m_cellId` equal to the key it is stored under and
`m_rsrp` equal to 0. -/
theorem Reachable_storeInv (s : MultiHandoverAlgorithm) (h : Reachable s) :
    ∀ e ∈ s.m_neighbourCellMeasures,
      e.2 ≠ [] ∧ ∀ x ∈ e.2, x.2.m_cellId = x.1 ∧ x.2.m_rsrp = 0 := by
  have hinv : storeInv s.m_neighbourCellMeasures := by
    induction h with
    | init s hs =>
      intro e he
      rw [hs] at he
      exact absurd he (List.not_mem_nil e)
    | update s rnti cellId rsrq _ ih =>
      exact UpdateNeighbourMeasurements_storeInv s rnti cellId rsrq ih
    | report env s s' rnti measResults _ hok ih =>
      exact DoReportUeMeas_storeInv env s s' rnti measResults ih hok
  exact hinv

/-- Under C19: the object reached from the empty table by Scenario A's report
at 6 s and a further update of cell 3 for terminal 7 is reachable, its table
holds the row of terminal 7 with cells 2 and 3, and the invariant holds on
it. -/
theorem Reachable_storeInv_witness :
    Reachable (UpdateNeighbourMeasurements
      (upsertAll (withTable []) 7 scenarioReport.measResultListEutra) 7 3 12) ∧
    (UpdateNeighbourMeasurements
      (upsertAll (withTable []) 7 scenarioReport.measResultListEutra) 7 3
        12).m_neighbourCellMeasures =
      [(7, [(2, { m_cellId := 2, m_rsrp := 0, m_rsrq := 30 }),
        (3, { m_cellId := 3, m_rsrp := 0, m_rsrq := 12 })])] ∧
    ∀ e ∈ (UpdateNeighbourMeasurements
        (upsertAll (withTable []) 7 scenarioReport.measResultListEutra) 7 3
          12).m_neighbourCellMeasures,
      e.2 ≠ [] ∧ ∀ x ∈ e.2, x.2.m_cellId = x.1 ∧ x.2.m_rsrp = 0 :=
  have hreach : Reachable (UpdateNeighbourMeasurements
      (upsertAll (withTable []) 7 scenarioReport.measResultListEutra) 7 3 12) :=
    Reachable.update _ 7 3 12
      (Reachable.report envA (withTable []) _ 7 scenarioReport
        (Reachable.init (withTable []) rfl)
        (by decide!))
  ⟨hreach, by decide!, Reachable_storeInv _ hreach⟩

end MultiHandover
